import Mathlib

/-!
Verification development for the Sparket scoring-ledger subsystem.

This file shallowly embeds the ledger data model, redaction filter,
manifest signing/verification, deterministic weight computation,
filesystem store, and auditor sync of the repository into Lean 4, and
proves the specification claims C1..C10 about them.

Modelling conventions:
* Python floats are modelled as exact rationals (ℚ); IEEE-754 rounding,
  float32 narrowing and NaN/inf special values are outside the model
  (no claim proved here depends on them; where the source guards against
  NaN, the guard is noted in a comment).
* Python ints are ℤ, str is String, datetimes are a year/month/.../second
  record, None is Option.none.
* Mutation of objects is modelled by explicit state passing: a method that
  mutates `self` becomes a function returning the updated record.
* SHA-256 content hashing and ed25519 keypair signatures live outside the
  repository (external libraries); they are modelled symbolically as
  ideal (collision-free / unforgeable) primitives, see `compute_section_hash`
  and `SigVal`.
-/

namespace SparketLedger

/-! ## Python-style string primitives

Python compares `str` values lexicographically by Unicode code point and
formats non-negative integers in decimal without padding. These helpers
reproduce that behaviour with kernel-reducible structural recursion. -/

/-- Code-point comparison of characters, as Python compares `str` elements. -/
def chLt (a b : Char) : Bool := a.toNat < b.toNat

/-- Lexicographic code-point comparison of character lists (Python `<` on `str`). -/
def clLt : List Char → List Char → Bool
  | [], [] => false
  | [], _ :: _ => true
  | _ :: _, [] => false
  | a :: as, b :: bs => if a.toNat = b.toNat then clLt as bs else chLt a b

/-- Python string `a < b` (lexicographic by code point). -/
def pyLt (a b : String) : Bool := clLt a.data b.data

/-- Python string `a <= b`. -/
def pyLe (a b : String) : Bool := !pyLt b a

/-- The `≥` relation on strings induced by `pyLt`; used for Python
`sorted(..., reverse=True)`. -/
def strGe (a b : String) : Prop := pyLt a b = false

instance : DecidableRel strGe := fun a b => instDecidableEqBool (pyLt a b) false

/-- The `≤` relation on strings induced by `pyLt`; used for Python `sorted(...)`. -/
def strLe (a b : String) : Prop := pyLt b a = false

instance : DecidableRel strLe := fun a b => instDecidableEqBool (pyLt b a) false

/-- Decimal digit character. -/
def digitChar (n : ℕ) : Char := Char.ofNat (48 + n)

/-- Fuelled decimal digit expansion (most significant first). -/
def natDigitsAux : ℕ → ℕ → List Char
  | 0, _ => []
  | fuel + 1, n =>
    if n < 10 then [digitChar n]
    else natDigitsAux fuel (n / 10) ++ [digitChar (n % 10)]

/-- Decimal rendering of a natural number, as Python `str(n)` for `n ≥ 0`. -/
def natToStr (n : ℕ) : String := String.mk (natDigitsAux (n + 1) n)

/-- Decimal rendering of an integer, as Python `str(n)` / f-string interpolation. -/
def intToStr (n : ℤ) : String :=
  if n < 0 then "-" ++ natToStr (-n).toNat else natToStr n.toNat

/-- Zero-pad a natural to `w` digits, as Python `strftime` zero padding. -/
def padNat (w : ℕ) (n : ℕ) : String :=
  String.mk (List.replicate (w - (natToStr n).length) '0') ++ natToStr n

/-! ## Rational helpers mirroring Python / numpy primitives -/

/-- Python `round` on a rational: round half to even (banker's rounding),
the semantics of Python 3 `round(float)`. -/
def pyRound (q : ℚ) : ℤ :=
  let f : ℤ := ⌊q⌋
  let r : ℚ := q - (f : ℚ)
  if r < 1/2 then f
  else if r > 1/2 then f + 1
  else if f % 2 = 0 then f else f + 1

/-- numpy `np.clip(x, lo, hi)` on one scalar. -/
def clipQ (lo hi x : ℚ) : ℚ := min hi (max lo x)

/-- Python `int(...)` truncation of a rational toward zero. -/
def truncQ (q : ℚ) : ℤ := if 0 ≤ q then ⌊q⌋ else ⌈q⌉

/-- Sum of a list of rationals (numpy `.sum()`). -/
def sumQ (l : List ℚ) : ℚ := l.foldr (· + ·) 0

/-- L1 norm: `np.linalg.norm(v, ord=1)` = sum of absolute values. -/
def l1Norm (l : List ℚ) : ℚ := sumQ (l.map (fun x => |x|))

/-- Inclusive prefix sums, numpy `np.cumsum`. -/
def cumsumQ : List ℚ → List ℚ
  | [] => []
  | x :: xs => x :: (cumsumQ xs).map (fun y => x + y)

/-- Maximum of a list of rationals (numpy `.max()`), with 0 for the empty
list (numpy raises there; no call site reaches it on an empty array). -/
def maxQ (l : List ℚ) : ℚ :=
  match l with
  | [] => 0
  | x :: xs => xs.foldl max x

/-! ## Datetimes

Only the pieces of `datetime` the ledger uses: field storage, `strftime`
with the fixed format `%Y%m%dT%H%M%S`, and chronological comparison.
`isoformat`/`fromisoformat` round-tripping is modelled as the identity. -/

structure DateTime where
  year : ℕ
  month : ℕ
  day : ℕ
  hour : ℕ
  minute : ℕ
  second : ℕ
deriving DecidableEq, Repr

/-- Python `dt.strftime("%Y%m%dT%H%M%S")`. -/
def DateTime.fmtCompact (t : DateTime) : String :=
  padNat 4 t.year ++ padNat 2 t.month ++ padNat 2 t.day ++ "T" ++
    padNat 2 t.hour ++ padNat 2 t.minute ++ padNat 2 t.second

/-- Chronological strict order on datetimes (lexicographic on the fields). -/
def DateTime.isBefore (a b : DateTime) : Bool :=
  if a.year ≠ b.year then a.year < b.year
  else if a.month ≠ b.month then a.month < b.month
  else if a.day ≠ b.day then a.day < b.day
  else if a.hour ≠ b.hour then a.hour < b.hour
  else if a.minute ≠ b.minute then a.minute < b.minute
  else a.second < b.second

/-! ## Ledger data model (`sparket/validator/ledger/models.py`) -/

/-- `LEDGER_SCHEMA_VERSION` from models.py. -/
def LEDGER_SCHEMA_VERSION : ℤ := 1

/-- `MetricAccumulator`: weighted sum / weight sum pair for a single metric. -/
structure MetricAccumulator where
  ws : ℚ
  wt : ℚ
deriving DecidableEq, Repr

/-- `AccumulatorEntry`: per-miner accumulator state in a checkpoint. -/
structure AccumulatorEntry where
  miner_id : ℤ
  hotkey : String
  uid : ℤ
  n_submissions : ℤ := 0
  n_outcomes : ℤ := 0
  brier : MetricAccumulator := ⟨0, 0⟩
  fq : MetricAccumulator := ⟨0, 0⟩
  pss : MetricAccumulator := ⟨0, 0⟩
  es : MetricAccumulator := ⟨0, 0⟩
  mes : MetricAccumulator := ⟨0, 0⟩
  sos : MetricAccumulator := ⟨0, 0⟩
  lead : MetricAccumulator := ⟨0, 0⟩
  brier_mean : ℚ := 0
  fq_raw : ℚ := 0
  pss_mean : ℚ := 0
  es_adj : ℚ := 0
  mes_mean : ℚ := 0
  sos_score : ℚ := 1/2
  lead_score : ℚ := 1/2
  cal_score : ℚ := 1/2
  sharp_score : ℚ := 1/2
deriving DecidableEq, Repr

/-- `AccumulatorEntry.derive_means`: recompute the seven derived means from
the accumulator pairs. The Python guard `if self.brier.wt` is float
truthiness, i.e. `wt ≠ 0`; the mutation of `self` is modelled by returning
the updated entry. `cal_score` and `sharp_score` are not recomputed. -/
def AccumulatorEntry.derive_means (a : AccumulatorEntry) : AccumulatorEntry :=
  { a with
    brier_mean := if a.brier.wt ≠ 0 then a.brier.ws / a.brier.wt else 0
    fq_raw := if a.fq.wt ≠ 0 then a.fq.ws / a.fq.wt else 0
    pss_mean := if a.pss.wt ≠ 0 then a.pss.ws / a.pss.wt else 0
    es_adj := if a.es.wt ≠ 0 then a.es.ws / a.es.wt else 0
    mes_mean := if a.mes.wt ≠ 0 then a.mes.ws / a.mes.wt else 1/2
    sos_score := if a.sos.wt ≠ 0 then a.sos.ws / a.sos.wt else 1/2
    lead_score := if a.lead.wt ≠ 0 then a.lead.ws / a.lead.wt else 1/2 }

/-- `MinerRosterEntry` from models.py. -/
structure MinerRosterEntry where
  miner_id : ℤ
  uid : ℤ
  hotkey : String
  active : Bool
deriving DecidableEq, Repr

/-- `ScoringConfigSnapshot.params`: a two-level dict of named numeric
parameters (`dimension_weights`, `skill_score_weights`, `normalization`,
`weight_emission`), modelled as an association list of association lists. -/
structure ScoringConfigSnapshot where
  params : List (String × List (String × ℚ)) := []
deriving DecidableEq, Repr

/-- Python `d.get(k, default)` on an association list (dict keys unique;
first match returned). -/
def dictGet {α : Type} (l : List (String × α)) (k : String) (d : α) : α :=
  match l with
  | [] => d
  | (k', v) :: rest => if k' = k then v else dictGet rest k d

/-- `ChainParamsSnapshot` from models.py. -/
structure ChainParamsSnapshot where
  burn_rate : ℚ
  burn_uid : Option ℤ := none
  max_weight_limit : ℚ
  min_allowed_weights : ℤ
  n_neurons : ℕ
deriving DecidableEq, Repr

/-- `SettledSubmissionEntry` from models.py. -/
structure SettledSubmissionEntry where
  miner_id : ℤ
  market_id : ℤ
  side : String
  imp_prob : ℚ
  brier : Option ℚ := none
  pss : Option ℚ := none
  settled_at : DateTime
deriving DecidableEq, Repr

/-- `OutcomeEntry` from models.py. -/
structure OutcomeEntry where
  market_id : ℤ
  event_id : ℤ
  result : Option String := none
  score_home : Option ℚ := none
  score_away : Option ℚ := none
  settled_at : DateTime
deriving DecidableEq, Repr

/-- `RecomputeRecord` from models.py. The pydantic validators
(`reason_detail` non-empty, `severity` in the closed set, `reason_code` in
the enum) are invariants of construction; where a claim needs them they
appear as hypotheses. `reason_code` is modelled by its serialized string
value. -/
structure RecomputeRecord where
  epoch : ℤ
  previous_epoch : ℤ
  reason_code : String
  reason_detail : String
  affected_event_ids : List ℤ := []
  severity : String
  timestamp : DateTime
  code_version : String
deriving DecidableEq, Repr

/-- `MinerMetrics` from models.py: derived rolling means, the input to
`compute_weights`. -/
structure MinerMetrics where
  uid : ℤ
  hotkey : String
  fq_raw : ℚ := 0
  pss_mean : ℚ := 0
  es_adj : ℚ := 0
  mes_mean : ℚ := 1/2
  cal_score : ℚ := 1/2
  sharp_score : ℚ := 1/2
  sos_score : ℚ := 1/2
  lead_score : ℚ := 1/2
  brier_mean : ℚ := 0
deriving DecidableEq, Repr

/-- `MinerMetrics.from_accumulator`: builds MinerMetrics from an
AccumulatorEntry. In Python this first calls `acc.derive_means()`,
mutating the argument in place; the model returns the metrics together
with the mutated entry. -/
def MinerMetrics.from_accumulator (acc : AccumulatorEntry) :
    MinerMetrics × AccumulatorEntry :=
  let a := acc.derive_means
  ({ uid := a.uid
     hotkey := a.hotkey
     fq_raw := a.fq_raw
     pss_mean := a.pss_mean
     es_adj := a.es_adj
     mes_mean := a.mes_mean
     cal_score := a.cal_score
     sharp_score := a.sharp_score
     sos_score := a.sos_score
     lead_score := a.lead_score
     brier_mean := a.brier_mean }, a)

/-! ## Redaction filter (`sparket/validator/ledger/redaction.py`) -/

/-- `SAFE_ACCUMULATOR_FIELDS`. -/
def SAFE_ACCUMULATOR_FIELDS : List String :=
  ["miner_id", "hotkey", "uid", "n_submissions", "n_outcomes",
   "brier", "fq", "pss", "es", "mes", "sos", "lead",
   "brier_mean", "fq_raw", "pss_mean", "es_adj", "mes_mean",
   "sos_score", "lead_score", "cal_score", "sharp_score"]

/-- `SAFE_ROLLING_SCORE_FIELDS`. -/
def SAFE_ROLLING_SCORE_FIELDS : List String :=
  ["miner_id", "miner_hotkey", "uid", "n_submissions", "n_eff",
   "es_mean", "es_std", "es_adj", "mes_mean", "sos_mean", "pss_mean",
   "fq_raw", "brier_mean", "lead_ratio", "fq_score", "cal_score",
   "sharp_score", "edge_score", "mes_score", "sos_score", "lead_score",
   "forecast_dim", "econ_dim", "info_dim", "skill_score", "score_version",
   "as_of", "window_days",
   "brier_ws", "brier_wt", "fq_ws", "fq_wt", "pss_ws", "pss_wt",
   "es_ws", "es_wt", "mes_ws", "mes_wt", "sos_ws", "sos_wt",
   "lead_ws", "lead_wt"]

/-- `SAFE_OUTCOME_FIELDS`. -/
def SAFE_OUTCOME_FIELDS : List String :=
  ["market_id", "event_id", "result", "score_home", "score_away", "settled_at"]

/-- `SAFE_MINER_FIELDS`. -/
def SAFE_MINER_FIELDS : List String :=
  ["miner_id", "uid", "hotkey", "active"]

/-- `SAFE_SETTLED_SUBMISSION_FIELDS`. -/
def SAFE_SETTLED_SUBMISSION_FIELDS : List String :=
  ["miner_id", "market_id", "side", "imp_prob", "brier", "pss", "settled_at"]

/-- `TIER3_FIELD_PATTERNS`: the denylist of primary-only field names. -/
def TIER3_FIELD_PATTERNS : List String :=
  ["provider_quote", "odds_eu_close", "imp_prob_close", "imp_prob_norm_close",
   "ts_close", "raw",
   "ground_truth_snapshot", "ground_truth_closing", "sportsbook_bias",
   "close_odds_eu", "close_imp_prob", "close_imp_prob_norm",
   "clv_odds", "clv_prob", "cle", "minutes_to_close",
   "snapshot_prob", "snapshot_odds",
   "ext_ref",
   "odds_eu", "priced_at", "payload", "submitted_at"]

/-- A row handed to the redaction filter: field name to optional value
(`none` models Python `None`); the value type is irrelevant to redaction. -/
abbrev Row (α : Type) := List (String × Option α)

/-- `redact(row, allowlist)`: keep only allowlisted keys with non-None
values. -/
def redact {α : Type} (row : Row α) (allowlist : List String) : Row α :=
  row.filter (fun kv => decide (kv.1 ∈ allowlist) && kv.2.isSome)

/-- `contains_tier3(row)`: true iff any key of the row is in the denylist. -/
def contains_tier3 {α : Type} (row : Row α) : Bool :=
  row.any (fun kv => decide (kv.1 ∈ TIER3_FIELD_PATTERNS))

/-! ## Canonical hashing and manifest signatures
(`sparket/validator/ledger/signer.py`; the SHA-256 helper
`sparket.validator.scoring.determinism.compute_hash` and the bittensor
`Keypair` are external to the exported sources and are modelled from the
spec.) -/

/-- The value of one manifest section, as handed to `compute_section_hash`
by the exporter and the verifier. -/
inductive SectionVal where
  | rosterSec (r : List MinerRosterEntry)
  | accumulatorsSec (a : List AccumulatorEntry)
  | configSec (c : ScoringConfigSnapshot)
  | submissionsSec (s : List SettledSubmissionEntry)
  | outcomesSec (o : List OutcomeEntry)
deriving DecidableEq, Repr

/-- Modelled from the spec: a section hash is the SHA-256 of the canonical
JSON form of the section (`compute_hash` lives outside the exported
sources). SHA-256 is idealized as collision-free, so a digest is modelled
by the canonical content it commits to. -/
abbrev SectionHash := SectionVal

/-- `compute_section_hash(data)` under the ideal-hash model: the digest is
the canonical section content itself (injective by construction, the
idealization of a collision-free SHA-256). -/
def compute_section_hash (s : SectionVal) : SectionHash := s

/-- Python `dict.get(k)` (no default) on an association list. -/
def dictFind {α : Type} (l : List (String × α)) (k : String) : Option α :=
  match l with
  | [] => none
  | (k', v) :: rest => if k' = k then some v else dictFind rest k

/-- The non-signature fields of a `LedgerManifest`: the canonical signing
payload (`model_dump` with the `signature` key popped, then hashed; the
hash is idealized as injective, so the payload is modelled by the field
record itself). -/
structure ManifestCore where
  schema_version : ℤ
  window_type : String
  window_start : DateTime
  window_end : DateTime
  checkpoint_epoch : ℤ
  content_hashes : List (String × SectionHash)
  primary_hotkey : String
  created_at : DateTime
  recompute_record : Option RecomputeRecord
deriving DecidableEq, Repr

/-- The `signature` string field of a manifest, modelled symbolically:
empty string, a non-hex-decodable string, or a signature produced by some
key over some payload hash. An ideal (unforgeable) ed25519 scheme from
the spec: a signature verifies against hotkey `h` over payload `p` iff it
was produced by `h`'s key over exactly `p`. -/
inductive SigVal where
  | emptySig
  | malformedHex (s : String)
  | signedBy (hotkey : String) (payload : ManifestCore)
deriving DecidableEq, Repr

/-- `LedgerManifest` from models.py. -/
structure LedgerManifest where
  schema_version : ℤ := LEDGER_SCHEMA_VERSION
  window_type : String
  window_start : DateTime
  window_end : DateTime
  checkpoint_epoch : ℤ
  content_hashes : List (String × SectionHash)
  primary_hotkey : String
  signature : SigVal := SigVal.emptySig
  created_at : DateTime
  recompute_record : Option RecomputeRecord := none
deriving DecidableEq, Repr

/-- `_manifest_signing_payload`: canonical form of the manifest with the
signature field removed. -/
def manifest_signing_payload (m : LedgerManifest) : ManifestCore :=
  { schema_version := m.schema_version
    window_type := m.window_type
    window_start := m.window_start
    window_end := m.window_end
    checkpoint_epoch := m.checkpoint_epoch
    content_hashes := m.content_hashes
    primary_hotkey := m.primary_hotkey
    created_at := m.created_at
    recompute_record := m.recompute_record }

/-- `sign_manifest(manifest, wallet)`: sign the payload hash with the
wallet's hotkey (ideal signature model; the wallet is identified by its
hotkey address). -/
def sign_manifest (m : LedgerManifest) (wallet_hotkey : String) : SigVal :=
  SigVal.signedBy wallet_hotkey (manifest_signing_payload m)

/-- `verify_manifest(manifest, hotkey_ss58)`: false on an empty signature,
false on non-hex input, otherwise ideal ed25519 verification of the
payload hash against the expected hotkey. -/
def verify_manifest (m : LedgerManifest) (hotkey_ss58 : String) : Bool :=
  match m.signature with
  | SigVal.emptySig => false
  | SigVal.malformedHex _ => false
  | SigVal.signedBy k p =>
      decide (k = hotkey_ss58) && decide (p = manifest_signing_payload m)

/-! ## Windows (`models.py`) and the manifest verifier
(`sparket/validator/auditor/verifier.py`) -/

/-- `CheckpointWindow` from models.py. -/
structure CheckpointWindow where
  manifest : LedgerManifest
  roster : List MinerRosterEntry := []
  accumulators : List AccumulatorEntry := []
  scoring_config : ScoringConfigSnapshot := {}
  chain_params : Option ChainParamsSnapshot := none
deriving DecidableEq, Repr

/-- `DeltaWindow` from models.py. -/
structure DeltaWindow where
  manifest : LedgerManifest
  settled_submissions : List SettledSubmissionEntry := []
  settled_outcomes : List OutcomeEntry := []
deriving DecidableEq, Repr

/-- A window handed to `ManifestVerifier._verify` (checkpoint or delta). -/
inductive Window where
  | checkpoint (cp : CheckpointWindow)
  | delta (d : DeltaWindow)
deriving DecidableEq, Repr

/-- `window.manifest`. -/
def Window.manifest : Window → LedgerManifest
  | Window.checkpoint cp => cp.manifest
  | Window.delta d => d.manifest

/-- The `sections` dict built by `verify_checkpoint` / `verify_delta`,
in Python dict insertion order. -/
def Window.sections : Window → List (String × SectionVal)
  | Window.checkpoint cp =>
      [("roster", SectionVal.rosterSec cp.roster),
       ("accumulators", SectionVal.accumulatorsSec cp.accumulators),
       ("scoring_config", SectionVal.configSec cp.scoring_config)]
  | Window.delta d =>
      [("settled_submissions", SectionVal.submissionsSec d.settled_submissions),
       ("settled_outcomes", SectionVal.outcomesSec d.settled_outcomes)]

/-- `expected_type = "checkpoint" if isinstance(window, CheckpointWindow)
else "delta"`. -/
def Window.expectedType : Window → String
  | Window.checkpoint _ => "checkpoint"
  | Window.delta _ => "delta"

/-- `VerificationResult` from verifier.py. -/
structure VerificationResult where
  valid : Bool
  errors : List String
deriving DecidableEq, Repr

/-- The content-hash loop of `ManifestVerifier._verify`: for each expected
section, an error if its hash is missing from the manifest, an error if
the recomputed hash differs. Error strings are abbreviated (the source
interpolates the values; only presence matters to the contract). -/
def section_hash_errors (m : LedgerManifest) :
    List (String × SectionVal) → List String
  | [] => []
  | sec :: rest =>
    (match dictFind m.content_hashes sec.1 with
     | none => ["missing content hash for section: " ++ sec.1]
     | some expected =>
         if compute_section_hash sec.2 = expected then []
         else ["content hash mismatch for " ++ sec.1]) ++
      section_hash_errors m rest

/-- `ManifestVerifier._verify(window, sections)` for a verifier constructed
with `primary_hotkey`: schema version, hotkey, signature, content hashes,
window type; valid iff no errors accumulated. -/
def verifier_verify (primary_hotkey : String) (w : Window) : VerificationResult :=
  let manifest := w.manifest
  let e1 := if manifest.schema_version ≠ LEDGER_SCHEMA_VERSION
    then ["schema_version mismatch"] else []
  let e2 := if manifest.primary_hotkey ≠ primary_hotkey
    then ["primary_hotkey mismatch"] else []
  let e3 := if verify_manifest manifest primary_hotkey = false
    then ["signature verification failed"] else []
  let e4 := section_hash_errors manifest w.sections
  let e5 := if manifest.window_type ≠ w.expectedType
    then ["window_type mismatch"] else []
  let errors := e1 ++ e2 ++ e3 ++ e4 ++ e5
  { valid := errors.isEmpty, errors := errors }

/-- `ManifestVerifier.verify_checkpoint`. -/
def verify_checkpoint (primary_hotkey : String) (cp : CheckpointWindow) :
    VerificationResult :=
  verifier_verify primary_hotkey (Window.checkpoint cp)

/-- `ManifestVerifier.verify_delta`. -/
def verify_delta (primary_hotkey : String) (d : DeltaWindow) :
    VerificationResult :=
  verifier_verify primary_hotkey (Window.delta d)

/-! ## Filesystem store (`sparket/validator/ledger/store/filesystem.py`)

The directory trees `checkpoints/{cp_id}/…` and `deltas/epoch_{N}/{id}/…`
are modelled as association lists from directory name to the stored
window; writing files into an existing directory overwrites it. Pruning
is wall-clock-driven and outside the claims; it is not modelled. -/

/-- Replace the value at a key, or append a new entry (directory write). -/
def assocSet {α : Type} (l : List (String × α)) (k : String) (v : α) :
    List (String × α) :=
  match l with
  | [] => [(k, v)]
  | (k', v') :: rest =>
      if k' = k then (k, v) :: rest else (k', v') :: assocSet rest k v

/-- The checkpoint directory name built by `put_checkpoint`:
`epoch_{N}_{window_end:%Y%m%dT%H%M%S}`. -/
def checkpoint_id (cp : CheckpointWindow) : String :=
  "epoch_" ++ intToStr cp.manifest.checkpoint_epoch ++ "_" ++
    cp.manifest.window_end.fmtCompact

/-- The state of the `checkpoints/` directory. -/
abbrev CheckpointDir := List (String × CheckpointWindow)

/-- `FilesystemStore.put_checkpoint`: write the window under its id. -/
def put_checkpoint (st : CheckpointDir) (cp : CheckpointWindow) :
    CheckpointDir × String :=
  (assocSet st (checkpoint_id cp) cp, checkpoint_id cp)

/-- `FilesystemStore.get_latest_checkpoint`: list the checkpoint directory
names, sort descending (Python `sorted(..., reverse=True)` compares path
strings by code point), return the first directory that has a manifest
(every stored directory does). -/
def get_latest_checkpoint (st : CheckpointDir) : Option CheckpointWindow :=
  match List.insertionSort strGe (st.map Prod.fst) with
  | [] => none
  | d :: _ => dictFind st d

/-- The delta directory name built by `put_delta`:
`d_{window_start:%Y%m%dT%H%M%S}_{window_end:%Y%m%dT%H%M%S}`. -/
def delta_id (d : DeltaWindow) : String :=
  "d_" ++ d.manifest.window_start.fmtCompact ++ "_" ++
    d.manifest.window_end.fmtCompact

/-- The state of the `deltas/` tree: entries `(epoch, delta_id, window)`. -/
abbrev DeltaDirs := List (ℤ × String × DeltaWindow)

/-- Replace or append an entry of the delta tree (directory write). -/
def deltaSet (st : DeltaDirs) (epoch : ℤ) (k : String) (v : DeltaWindow) :
    DeltaDirs :=
  match st with
  | [] => [(epoch, k, v)]
  | e :: rest =>
      if e.1 = epoch ∧ e.2.1 = k then (epoch, k, v) :: rest
      else e :: deltaSet rest epoch k v

/-- `FilesystemStore.put_delta`: write the window under
`deltas/epoch_{N}/{delta_id}`. -/
def put_delta (st : DeltaDirs) (d : DeltaWindow) : DeltaDirs × String :=
  (deltaSet st d.manifest.checkpoint_epoch (delta_id d) d, delta_id d)

/-- `FilesystemStore.list_deltas(epoch, since)`: the sorted directory names
under `deltas/epoch_{N}`, and when `since` is given keep only ids with
`id > "d_" + since.strftime("%Y%m%dT%H%M%S")` (Python string comparison). -/
def list_deltas (st : DeltaDirs) (epoch : ℤ) (since : Option DateTime) :
    List String :=
  let ids := List.insertionSort strLe
    ((st.filter (fun e => decide (e.1 = epoch))).map (fun e => e.2.1))
  match since with
  | none => ids
  | some t => ids.filter (fun d => pyLt ("d_" ++ t.fmtCompact) d)

/-! ## Auditor sync (`sparket/validator/auditor/sync.py`)

`LedgerSync` state and its epoch-change / delta-application logic.
`last_delta_ts` is stored as an ISO string in the source and re-parsed
with `fromisoformat`; the round trip is the identity, so it is modelled
as an optional datetime (`""` ↦ `none`). Wall-clock `time.time()` is the
explicit `now` argument; `_save_state` writes to disk and is outside the
model. -/

/-- One `self.accumulator[mid]` dict: `{"brier_ws", "brier_wt", "count"}`. -/
structure BrierAcc where
  brier_ws : ℚ := 0
  brier_wt : ℚ := 0
  count : ℤ := 0
deriving DecidableEq, Repr

/-- `_RecomputeHistoryEntry` from sync.py. -/
structure RecomputeHistoryEntry where
  epoch : ℤ
  timestamp : ℚ
  reason_code : String
  reason_detail : String
deriving DecidableEq, Repr

/-- The durable local state of `LedgerSync`. -/
structure SyncState where
  epoch : ℤ := 0
  last_delta_id : String := ""
  last_delta_ts : Option DateTime := none
  accumulator : List (String × BrierAcc) := []
  recompute_history : List RecomputeHistoryEntry := []
deriving DecidableEq, Repr

/-- `EpochChangeResult` from sync.py. -/
structure EpochChangeResult where
  status : String
  reason : String := ""
deriving DecidableEq, Repr

/-- Number of recompute-history entries within the trailing `window`
seconds of `now` (the list comprehensions over `self.recompute_history`). -/
def bumpsWithin (st : SyncState) (now window : ℚ) : ℕ :=
  (st.recompute_history.filter (fun e => decide (now - e.timestamp < window))).length

/-- `LedgerSync._handle_epoch_change(cp)`: reject an epoch change whose
recompute record has an empty reason, pause when the rolling 24h/7d bump
counts reach their limits, otherwise accept — reset epoch, accumulators
and delta cursor, and append to the recompute history when a record is
present. (The skipped-epochs case only logs a warning.) -/
def handle_epoch_change (st : SyncState) (cp : CheckpointWindow) (now : ℚ)
    (max_per_day max_per_week : ℤ) : EpochChangeResult × SyncState :=
  let new_epoch := cp.manifest.checkpoint_epoch
  let record := cp.manifest.recompute_record
  if (match record with
      | some r => decide (r.reason_detail = "")
      | none => false) = true then
    ({ status := "rejected", reason := "empty_reason_detail" }, st)
  else if max_per_day ≤ (bumpsWithin st now 86400 : ℤ) then
    ({ status := "paused", reason := "RECOMPUTE_RATE_EXCEEDED_DAILY" }, st)
  else if max_per_week ≤ (bumpsWithin st now 604800 : ℤ) then
    ({ status := "paused", reason := "RECOMPUTE_RATE_EXCEEDED_WEEKLY" }, st)
  else
    ({ status := "accepted" },
     { st with
       epoch := new_epoch
       accumulator := []
       last_delta_id := ""
       last_delta_ts := none
       recompute_history := st.recompute_history ++
         (match record with
          | some r => [{ epoch := new_epoch, timestamp := now,
                         reason_code := r.reason_code,
                         reason_detail := r.reason_detail }]
          | none => []) })

/-- The per-submission body of `LedgerSync._apply_delta`: create the
miner's accumulator dict entry if missing, then fold in the brier score
when present. -/
def applySub (acc : List (String × BrierAcc)) (sub : SettledSubmissionEntry) :
    List (String × BrierAcc) :=
  let mid := intToStr sub.miner_id
  let acc0 := match dictFind acc mid with
    | some _ => acc
    | none => acc ++ [(mid, {})]
  match sub.brier with
  | none => acc0
  | some b =>
      acc0.map (fun kv =>
        if kv.1 = mid then
          (kv.1, { brier_ws := kv.2.brier_ws + b, brier_wt := kv.2.brier_wt + 1,
                   count := kv.2.count + 1 })
        else kv)

/-- `LedgerSync._apply_delta(delta)`. -/
def apply_delta (st : SyncState) (d : DeltaWindow) : SyncState :=
  { st with accumulator := d.settled_submissions.foldl applySub st.accumulator }

/-- The store as seen by one sync cycle: the fetched latest checkpoint and
the delta listing/fetch functions (the awaited `LedgerStore` calls). -/
structure StoreModel where
  latest_checkpoint : Option CheckpointWindow
  delta_ids : ℤ → Option DateTime → List String
  fetch_delta : String → Option DeltaWindow

/-- The delta-fetch loop of `sync_cycle` (steps after the epoch check):
list ids since the cursor, drop ids at or below `last_delta_id`, fetch in
ascending order, skip missing windows and stale epochs, apply the rest and
advance the cursor. -/
def fetch_new_deltas (store : StoreModel) (st : SyncState) :
    List DeltaWindow × SyncState :=
  let ids := store.delta_ids st.epoch st.last_delta_ts
  let new_ids := if st.last_delta_id ≠ ""
    then ids.filter (fun d => pyLt st.last_delta_id d)
    else ids
  new_ids.foldl (fun acc i =>
    match store.fetch_delta i with
    | none => acc
    | some d =>
        if d.manifest.checkpoint_epoch ≠ acc.2.epoch then acc
        else (acc.1 ++ [d],
          { apply_delta acc.2 d with
            last_delta_id := i
            last_delta_ts := some d.manifest.window_end }))
    ([], st)

/-- `LedgerSync.sync_cycle`: fetch the latest checkpoint (none → no work);
on an epoch change invoke `handle_epoch_change` and stop the tick without
deltas when the result is "rejected" or "paused"; otherwise fetch and
apply new deltas. Returns (checkpoint, new deltas, state). -/
def sync_cycle (store : StoreModel) (st : SyncState) (now : ℚ)
    (max_per_day max_per_week : ℤ) :
    Option CheckpointWindow × List DeltaWindow × SyncState :=
  match store.latest_checkpoint with
  | none => (none, [], st)
  | some cp =>
      if cp.manifest.checkpoint_epoch ≠ st.epoch then
        let r := handle_epoch_change st cp now max_per_day max_per_week
        if r.1.status = "rejected" ∨ r.1.status = "paused" then
          (some cp, [], r.2)
        else
          let f := fetch_new_deltas store r.2
          (some cp, f.1, f.2)
      else
        let f := fetch_new_deltas store st
        (some cp, f.1, f.2)

/-- `LedgerSync.get_miner_metrics`: derive `MinerMetrics` from every
accumulator entry of the latest checkpoint (the auditor path into
`compute_weights`). The in-place mutation of the entries is part of the
model of `from_accumulator`; only the metrics are returned here. -/
def get_miner_metrics (cp : Option CheckpointWindow) : List MinerMetrics :=
  match cp with
  | none => []
  | some c => c.accumulators.map (fun a => (MinerMetrics.from_accumulator a).1)

/-! ## Weight computation (`sparket/validator/ledger/compute_weights.py`)

The two population-normalization helpers are imported from
`sparket.validator.scoring.aggregation.normalization`, which is not among
the exported sources; they are modelled from the spec (§4.4 / §9). The
spec leaves their exact numeric definitions open ("the source of truth"
is the shared library), so rational surrogates with the documented shape
are used; no claim proved here depends on their values. -/

/-- Modelled from the spec: `normalize_percentile` — an empirical-CDF map
of each value into [0, 1] (midpoint convention on ties, which also gives
the specified 0.5 for a single participant). -/
def normalize_percentile (xs : List ℚ) : List ℚ :=
  let n := xs.length
  xs.map (fun x =>
    ((xs.countP (fun y => decide (y < x)) : ℚ) +
      (xs.countP (fun y => decide (y = x)) : ℚ) / 2) / n)

/-- Rational square-root surrogate (for the z-score population standard
deviation): floor square root at 10⁻⁶ resolution. -/
def ratSqrtApprox (q : ℚ) : ℚ :=
  if q ≤ 0 then 0 else (Nat.sqrt (q * 1000000000000).floor.toNat : ℚ) / 1000000

/-- Modelled from the spec: `normalize_zscore_logistic` — a logistic-style
squashing of the population z-score into (0, 1). The z-score uses the
population mean and an approximate population standard deviation; the
logistic is the rational sigmoid `z ↦ 1/2 + z / (2(1 + |z|))`. -/
def normalize_zscore_logistic (xs : List ℚ) : List ℚ :=
  let n : ℚ := xs.length
  let mean := sumQ xs / n
  let var := sumQ (xs.map (fun x => (x - mean) ^ 2)) / n
  let sd := ratSqrtApprox var
  xs.map (fun x =>
    let z := if sd = 0 then 0 else (x - mean) / sd
    1/2 + z / (2 * (1 + |z|)))

/-- `U16_MAX` from compute_weights.py. -/
def U16_MAX : ℤ := 65535

/-- `_normalize_max_weight(x, limit)`: normalize so the sum is 1 and no
entry exceeds `limit` (the water-filling construction, including the
Python negative-index fallback when `n_values == 0`). -/
def normalize_max_weight (x : List ℚ) (limit : ℚ) : List ℚ :=
  let epsilon : ℚ := 1/10000000
  let values := List.insertionSort (· ≤ ·) x
  if sumQ x = 0 ∨ (x.length : ℚ) * limit ≤ 1 then
    List.replicate x.length (1 / (x.length : ℚ))
  else
    let estimation := values.map (fun v => v / sumQ values)
    if maxQ estimation ≤ limit then x.map (fun w => w / sumQ x)
    else
      let n := estimation.length
      let cums := cumsumQ estimation
      let estimation_sum := estimation.enum.map
        (fun p => ((n - p.1 - 1 : ℕ) : ℚ) * p.2)
      let ratios := List.zipWith (fun e s => e / (s + epsilon))
        estimation (List.zipWith (· + ·) estimation_sum cums)
      let n_values := ratios.countP (fun r => decide (r < limit))
      let cum_at := if n_values = 0 then cums.getLastD 0 else cums.getD (n_values - 1) 0
      let cutoff_scale := (limit * cum_at - epsilon) /
        (1 - limit * ((n : ℚ) - (n_values : ℚ)))
      let cutoff := cutoff_scale * sumQ values
      let clipped := x.map (fun w => if cutoff < w then cutoff else w)
      clipped.map (fun w => w / sumQ clipped)

/-- `_convert_to_uint16(uids, weights)` over parallel `(uid, weight)`
pairs: keep positive weights, scale by the maximum, round each scaled
weight times `U16_MAX` (Python `round`, half to even), drop zeros. -/
def convert_to_uint16 (pairs : List (ℤ × ℚ)) : List ℤ × List ℤ :=
  let nz := pairs.filter (fun p => decide (0 < p.2))
  if nz.isEmpty then ([], [])
  else
    let max_weight := maxQ (nz.map (fun p => p.2))
    if max_weight = 0 then ([], [])
    else
      let out := nz.filterMap (fun p =>
        let v := pyRound (p.2 / max_weight * (U16_MAX : ℚ))
        if v ≠ 0 then some (p.1, v) else none)
      (out.map (fun p => p.1), out.map (fun p => p.2))

/-- The configuration values `compute_weights` extracts from
`scoring_config.params` (each `params.get(...)`/`dict.get(...)` with the
source's defaults; float literals as exact rationals). -/
structure CWParams where
  w_fq : ℚ
  w_cal : ℚ
  w_edge : ℚ
  w_mes : ℚ
  w_sos : ℚ
  w_lead : ℚ
  w_outcome_accuracy : ℚ
  w_outcome_relative : ℚ
  w_odds_edge : ℚ
  w_info_adv : ℚ
  min_count : ℤ
  burn_rate : ℚ
deriving DecidableEq, Repr

/-- The config-extraction block at the top of `compute_weights`. -/
def extract_params (cfg : ScoringConfigSnapshot) : CWParams :=
  let dim := dictGet cfg.params "dimension_weights" []
  let skill := dictGet cfg.params "skill_score_weights" []
  let norm := dictGet cfg.params "normalization" []
  let emission := dictGet cfg.params "weight_emission" []
  { w_fq := dictGet dim "w_fq" (6/10)
    w_cal := dictGet dim "w_cal" (4/10)
    w_edge := dictGet dim "w_edge" (7/10)
    w_mes := dictGet dim "w_mes" (3/10)
    w_sos := dictGet dim "w_sos" (6/10)
    w_lead := dictGet dim "w_lead" (4/10)
    w_outcome_accuracy := dictGet skill "w_outcome_accuracy" (1/10)
    w_outcome_relative := dictGet skill "w_outcome_relative" (1/10)
    w_odds_edge := dictGet skill "w_odds_edge" (5/10)
    w_info_adv := dictGet skill "w_info_adv" (3/10)
    min_count := truncQ (dictGet norm "min_count_for_zscore" 10)
    burn_rate := dictGet emission "burn_rate" (9/10) }

/-- `sorted(miner_metrics, key=lambda m: m.uid)` — Python's stable sort;
`insertionSort` with `≤` on uids inserts before the first equal-or-larger
element and is likewise stable. -/
def sorted_metrics (ms : List MinerMetrics) : List MinerMetrics :=
  List.insertionSort (fun a b => a.uid ≤ b.uid) ms

/-- Steps 1–2 of `compute_weights`: per-metric normalization and the four
dimension combinations, per sorted miner:
`(forecast_dim, skill_dim, econ_dim, info_dim)`. -/
def dimension_vecs (ms : List MinerMetrics) (cfg : ScoringConfigSnapshot) :
    List (ℚ × ℚ × ℚ × ℚ) :=
  let p := extract_params cfg
  let sorted := sorted_metrics ms
  let n_miners := sorted.length
  let fq_norm := sorted.map (fun m => clipQ 0 1 ((m.fq_raw + 1) / 2))
  let use_zscore := p.min_count ≤ (n_miners : ℤ)
  let pss_norm := if use_zscore
    then normalize_zscore_logistic (sorted.map (fun m => m.pss_mean))
    else normalize_percentile (sorted.map (fun m => m.pss_mean))
  let es_norm := if use_zscore
    then normalize_zscore_logistic (sorted.map (fun m => m.es_adj))
    else normalize_percentile (sorted.map (fun m => m.es_adj))
  let cal_norm := sorted.map (fun m => clipQ 0 1 m.cal_score)
  let mes_norm := sorted.map (fun m => clipQ 0 1 m.mes_mean)
  let sos_norm := sorted.map (fun m => clipQ 0 1 m.sos_score)
  let lead_norm := sorted.map (fun m => clipQ 0 1 m.lead_score)
  let forecast := List.zipWith (fun f c => p.w_fq * f + p.w_cal * c) fq_norm cal_norm
  let econ := List.zipWith (fun e m => p.w_edge * e + p.w_mes * m) es_norm mes_norm
  let info := List.zipWith (fun s l => p.w_sos * s + p.w_lead * l) sos_norm lead_norm
  List.zipWith (fun fs ei => (fs.1, fs.2, ei.1, ei.2))
    (List.zipWith (fun f s => (f, s)) forecast pss_norm)
    (List.zipWith (fun e i => (e, i)) econ info)

/-- Step 3 of `compute_weights`: the final skill score per sorted miner. -/
def skill_score_vec (ms : List MinerMetrics) (cfg : ScoringConfigSnapshot) :
    List ℚ :=
  let p := extract_params cfg
  (dimension_vecs ms cfg).map (fun d =>
    p.w_outcome_accuracy * d.1 + p.w_outcome_relative * d.2.1 +
      p.w_odds_edge * d.2.2.1 + p.w_info_adv * d.2.2.2)

/-- `WeightResult` from compute_weights.py. The `dict[int, …]` audit
fields are association lists with Python-dict assignment semantics. -/
structure WeightResult where
  uids : List ℤ := []
  uint16_weights : List ℤ := []
  skill_scores : List (ℤ × ℚ) := []
  raw_weights : List (ℤ × ℚ) := []
  dimension_scores : List (ℤ × List (String × ℚ)) := []
deriving DecidableEq, Repr

/-- Python dict assignment `d[k] = v`: update in place, else append. -/
def dictAssign {α : Type} (l : List (ℤ × α)) (k : ℤ) (v : α) : List (ℤ × α) :=
  match l with
  | [] => [(k, v)]
  | (k', v') :: rest =>
      if k' = k then (k, v) :: rest else (k', v') :: dictAssign rest k v

/-- One iteration of the audit-trail recording loop:
`result.skill_scores[uid] = …` and `result.dimension_scores[uid] = {…}`. -/
def audit_step (r : WeightResult) (usd : ℤ × ℚ × (ℚ × ℚ × ℚ × ℚ)) :
    WeightResult :=
  { r with
    skill_scores := dictAssign r.skill_scores usd.1 usd.2.1
    dimension_scores := dictAssign r.dimension_scores usd.1
      [("forecast_dim", usd.2.2.1), ("skill_dim", usd.2.2.2.1),
       ("econ_dim", usd.2.2.2.2.1), ("info_dim", usd.2.2.2.2.2)] }

/-- The audit-trail recording loop: `result.skill_scores[uid]` and
`result.dimension_scores[uid]` for each sorted miner. -/
def audit_result (ms : List MinerMetrics) (cfg : ScoringConfigSnapshot) :
    WeightResult :=
  (List.zipWith (fun (m : MinerMetrics) sd => (m.uid, sd))
      (sorted_metrics ms)
      (List.zipWith (fun s d => (s, d)) (skill_score_vec ms cfg)
        (dimension_vecs ms cfg))).foldl audit_step {}

/-- Step 4 of `compute_weights`: scatter the skill scores into a dense
vector of length `n_neurons` indexed by uid; out-of-range uids are
dropped, duplicate uids overwrite (loop order). -/
def dense_scores (ms : List MinerMetrics) (cfg : ScoringConfigSnapshot)
    (n_neurons : ℕ) : List ℚ :=
  (List.zipWith (fun (m : MinerMetrics) s => (m.uid, s)) (sorted_metrics ms)
      (skill_score_vec ms cfg)).foldl
    (fun v p =>
      if 0 ≤ p.1 ∧ p.1 < (n_neurons : ℤ) then v.set p.1.toNat p.2 else v)
    (List.replicate n_neurons 0)

/-- Step 5 of `compute_weights` (non-zero norm path): L1-normalize, then
apply the burn rate when `burn_rate > 0` and `burn_uid` is a valid index. -/
def apply_burn (scores : List ℚ) (norm : ℚ) (chain : ChainParamsSnapshot)
    (burn_rate : ℚ) : List ℚ :=
  let raw := scores.map (fun s => s / norm)
  match chain.burn_uid with
  | some b =>
      if 0 < burn_rate ∧ 0 ≤ b ∧ b < (chain.n_neurons : ℤ) then
        (raw.map (fun w => w * (1 - burn_rate))).set b.toNat burn_rate
      else raw
  | none => raw

/-- The `result.raw_weights` recording loop plus steps 6–7 of
`compute_weights`: record positive raw weights, build the non-zero
mask, pad with the small uniform base when below `min_allowed_weights`,
apply the max-weight projection and quantize to uint16. -/
def process_and_emit (res : WeightResult) (raw : List ℚ)
    (chain : ChainParamsSnapshot) : WeightResult :=
  let n := chain.n_neurons
  let nz := (List.range n).filterMap (fun u =>
    if 0 < raw.getD u 0 then some ((u : ℤ), raw.getD u 0) else none)
  let res := { res with raw_weights := nz }
  if nz.isEmpty then res
  else if (nz.length : ℤ) < chain.min_allowed_weights then
    let padded := raw.map (fun w => if 0 < w then w + 1/100000 else 1/100000)
    let processed := normalize_max_weight padded chain.max_weight_limit
    let uw := convert_to_uint16
      (List.zipWith (fun (u : ℕ) w => ((u : ℤ), w)) (List.range n) processed)
    { res with uids := uw.1, uint16_weights := uw.2 }
  else
    let processed := normalize_max_weight (nz.map (fun p => p.2))
      chain.max_weight_limit
    let uw := convert_to_uint16
      (List.zipWith (fun p w => (Prod.fst p, w)) nz processed)
    { res with uids := uw.1, uint16_weights := uw.2 }

/-- `compute_weights(miner_metrics, scoring_config, chain_params)`: the
shared deterministic weight computation. NaN handling (`np.nan_to_num`,
`np.isnan(norm)`) is vacuous in the exact-rational model; the float32
narrowing of the dense score vector is likewise elided. -/
def compute_weights (ms : List MinerMetrics) (cfg : ScoringConfigSnapshot)
    (chain : ChainParamsSnapshot) : WeightResult :=
  if ms.isEmpty then
    match chain.burn_uid with
    | some b => { uids := [b], uint16_weights := [U16_MAX] }
    | none => {}
  else
    let res0 := audit_result ms cfg
    let scores := dense_scores ms cfg chain.n_neurons
    let norm := l1Norm scores
    if norm = 0 then
      match chain.burn_uid with
      | some b =>
          if 0 ≤ b ∧ b < (chain.n_neurons : ℤ) then
            process_and_emit res0
              ((List.replicate chain.n_neurons (0 : ℚ)).set b.toNat 1) chain
          else res0
      | none => res0
    else
      process_and_emit res0
        (apply_burn scores norm chain (extract_params cfg).burn_rate) chain

/-- The validity test on `burn_uid` used in the all-zero branch of
`compute_weights`: present and in `[0, n_neurons)`. -/
def burn_uid_valid (chain : ChainParamsSnapshot) : Bool :=
  match chain.burn_uid with
  | some b => decide (0 ≤ b) && decide (b < (chain.n_neurons : ℤ))
  | none => false

/-! ## Weight-verification plugin and runtime dispatch
(`sparket/validator/auditor/plugins/weight_verification.py`,
`sparket/validator/auditor/runtime.py`)

The parts of the auditor tick that decide whether a weight vector is
submitted to the chain. The metagraph and subtensor are external
collaborators; the values the plugin reads from them are fields of
`ChainView`. Logging, evidence dicts, Brier-mismatch counting (which
never aborts) and attestations do not affect the submission decision and
are not modelled. -/

/-- The chain state the weight-verification plugin reads: the metagraph's
hotkey list, its weight matrix `W` (absent when the metagraph lacks the
attribute), its size `n`, the subnet owner hotkey, and the subtensor's
weight limits. -/
structure ChainView where
  metagraph_hotkeys : List String
  metagraph_W : Option (List (List ℚ)) := none
  metagraph_n : ℕ
  owner_hotkey : Option String := none
  chain_max_weight_limit : ℚ := 65535
  chain_min_allowed_weights : ℤ := 0
deriving Repr

/-- The fields of `AuditorContext` the weight-verification plugin uses. -/
structure PluginContext where
  checkpoint : Option CheckpointWindow
  deltas : List DeltaWindow
  chain : ChainView
deriving Repr

/-- What `WeightVerificationHandler.on_cycle` does with the chain: the
task status, whether `subtensor.set_weights` is invoked, and the
submitted `(uids, uint16_weights)` payload. -/
structure WeightVerificationOutcome where
  status : String
  sets_weights : Bool
  submitted_uids : List ℤ
  submitted_weights : List ℤ
deriving DecidableEq, Repr

/-- Python `list.index` (call sites guard membership with `in` first). -/
def indexOf (l : List String) (x : String) : ℕ :=
  l.findIdx (fun y => decide (y = x))

/-- Dot product of two equal-length vectors (`np.dot`). -/
def dotQ (a b : List ℚ) : ℚ := sumQ (List.zipWith (· * ·) a b)

/-- The densification loop of the plugin's step 5:
`our_vec[uid] = w for uid, w in zip(...) if uid < len(our_vec)`. The
source checks only the upper bound; a negative uid cannot occur (uids
come from `compute_weights`), the model guards it. -/
def densify_u16 (n : ℕ) (uids ws : List ℤ) : List ℚ :=
  (List.zipWith (fun (u w : ℤ) => (u, w)) uids ws).foldl
    (fun v p =>
      if 0 ≤ p.1 ∧ p.1 < (n : ℤ) then v.set p.1.toNat (p.2 : ℚ) else v)
    (List.replicate n 0)

/-- `WeightVerificationHandler.on_cycle(context)` (steps 1 and 3–6):
skip without a checkpoint or without miners; build chain params from the
checkpoint or from the chain fallback; call the shared `compute_weights`;
compare with the primary's on-chain weight row by cosine similarity —
`match` and `cosine_sim` default to true/1.0, so the comparison is
skipped (match stays true) when the primary hotkey is not in the
metagraph, when the metagraph has no `W`, or when the vector lengths
differ (the source's try/except has the same effect); finally invoke
`set_weights` iff `match` holds and the computed uid list is non-empty.
The L2 norms inside the cosine use the rational square-root surrogate —
exact square roots are irrational; no theorem below depends on that
branch's value. -/
def weight_verification_on_cycle (ctx : PluginContext) (tolerance : ℚ) :
    WeightVerificationOutcome :=
  match ctx.checkpoint with
  | none => { status := "skip", sets_weights := false,
              submitted_uids := [], submitted_weights := [] }
  | some cp =>
    let metrics := cp.accumulators.map
      (fun a => (MinerMetrics.from_accumulator a).1)
    if metrics.isEmpty then
      { status := "skip", sets_weights := false,
        submitted_uids := [], submitted_weights := [] }
    else
      let chain_params := match cp.chain_params with
        | some p => p
        | none =>
            { burn_rate := dictGet
                (dictGet cp.scoring_config.params "weight_emission" [])
                "burn_rate" (9/10)
              burn_uid := match ctx.chain.owner_hotkey with
                | some bh =>
                    if bh ∈ ctx.chain.metagraph_hotkeys then
                      some ((indexOf ctx.chain.metagraph_hotkeys bh : ℕ) : ℤ)
                    else none
                | none => none
              max_weight_limit := ctx.chain.chain_max_weight_limit / 65535
              min_allowed_weights := ctx.chain.chain_min_allowed_weights
              n_neurons := ctx.chain.metagraph_n }
      let wr := compute_weights metrics cp.scoring_config chain_params
      let mtch : Bool :=
        if cp.manifest.primary_hotkey ∈ ctx.chain.metagraph_hotkeys then
          match ctx.chain.metagraph_W with
          | none => true
          | some w =>
              let primary_uid := indexOf ctx.chain.metagraph_hotkeys
                cp.manifest.primary_hotkey
              let chain_vec := w.getD primary_uid []
              let our_vec := densify_u16 chain_params.n_neurons
                wr.uids wr.uint16_weights
              if chain_vec.length = our_vec.length then
                let na := ratSqrtApprox (dotQ our_vec our_vec)
                let nb := ratSqrtApprox (dotQ chain_vec chain_vec)
                let cosine := if 0 < na ∧ 0 < nb
                  then dotQ our_vec chain_vec / (na * nb) else 1
                decide (1 - tolerance ≤ cosine)
              else true
        else true
      let sets := mtch && !wr.uids.isEmpty
      { status := if mtch then "pass" else "fail"
        sets_weights := sets
        submitted_uids := if sets then wr.uids else []
        submitted_weights := if sets then wr.uint16_weights else [] }

/-- One auditor tick end to end (`AuditorRuntime._cycle`): run
`sync_cycle`; stop without a checkpoint; stop when the checkpoint fails
manifest verification; otherwise dispatch every registered plugin — the
epoch-change result (accepted/paused/rejected) is never consulted — with
the checkpoint and the deltas that pass verification. Returns the
weight-verification plugin's outcome, `none` when plugins are not
dispatched. -/
def runtime_weight_outcome (primary_hotkey : String) (store : StoreModel)
    (st : SyncState) (now : ℚ) (max_per_day max_per_week : ℤ)
    (chain : ChainView) (tolerance : ℚ) : Option WeightVerificationOutcome :=
  let r := sync_cycle store st now max_per_day max_per_week
  match r.1 with
  | none => none
  | some cp =>
      if (verify_checkpoint primary_hotkey cp).valid then
        some (weight_verification_on_cycle
          { checkpoint := some cp
            deltas := r.2.1.filter (fun d => (verify_delta primary_hotkey d).valid)
            chain := chain } tolerance)
      else none

/-! ## Concrete inputs used by witnesses and counterexamples -/

/-- Concrete inputs for the C1 witness. -/
def metricsC1ex : List MinerMetrics :=
  [{ uid := 3, hotkey := "hk3" }, { uid := 1, hotkey := "hk1" }]

/-- Concrete chain params for the C1 witness. -/
def chainC1ex : ChainParamsSnapshot :=
  { burn_rate := 9/10, burn_uid := some 0, max_weight_limit := 1/10,
    min_allowed_weights := 0, n_neurons := 4 }

/-- Concrete accumulator entry for the C2 witness: nonzero brier pair,
zero mes pair. -/
def accC2ex : AccumulatorEntry :=
  { miner_id := 7, hotkey := "hk7", uid := 2, brier := ⟨6, 2⟩ }

/-- Concrete datetime for witness manifests. -/
def dtA : DateTime := ⟨2024, 1, 1, 0, 0, 0⟩

/-- Concrete datetime for witness manifests. -/
def dtB : DateTime := ⟨2024, 1, 2, 0, 0, 0⟩

/-- Unsigned concrete manifest for the C4 witness. -/
def maniC4ex : LedgerManifest :=
  { window_type := "checkpoint", window_start := dtA, window_end := dtB,
    checkpoint_epoch := 1, content_hashes := [], primary_hotkey := "primary",
    created_at := dtB }

/-- Unsigned concrete manifest for the C3 witness: checkpoint manifest
with correct section hashes for empty sections. -/
def maniC3base : LedgerManifest :=
  { window_type := "checkpoint", window_start := dtA, window_end := dtB,
    checkpoint_epoch := 1,
    content_hashes :=
      [("roster", SectionVal.rosterSec []),
       ("accumulators", SectionVal.accumulatorsSec []),
       ("scoring_config", SectionVal.configSec {})],
    primary_hotkey := "primary", created_at := dtB }

/-- Concrete well-formed checkpoint window for the C3 witness. -/
def cpC3ex : CheckpointWindow :=
  { manifest := { maniC3base with signature := sign_manifest maniC3base "primary" } }

/-- Concrete row for the C7 witness: one allowlisted field, one Tier-3
field, one null value. -/
def rowC7ex : Row ℚ :=
  [("brier_mean", some 0), ("clv_odds", some 1), ("uid", none)]

/-- Concrete metrics for the C5 witness: a single miner whose uid (5) is
outside the neuron range, so the dense score vector is all zero. -/
def msC5ex : List MinerMetrics := [{ uid := 5, hotkey := "hk5" }]

/-- Concrete chain params for the C5 witness: valid burn uid 1 of 3. -/
def chainC5ex : ChainParamsSnapshot :=
  { burn_rate := 9/10, burn_uid := some 1, max_weight_limit := 1/10,
    min_allowed_weights := 0, n_neurons := 3 }

/-- Unsigned concrete epoch-2 checkpoint manifest for the C6 scenario
(no recompute record — a benign bump). -/
def maniC6base : LedgerManifest :=
  { window_type := "checkpoint", window_start := dtA, window_end := dtB,
    checkpoint_epoch := 2,
    content_hashes :=
      [("roster", SectionVal.rosterSec []),
       ("accumulators", SectionVal.accumulatorsSec []),
       ("scoring_config", SectionVal.configSec {})],
    primary_hotkey := "primary", created_at := dtB }

/-- Concrete signed, well-formed epoch-2 checkpoint for the C6 scenario. -/
def cpC6ex : CheckpointWindow :=
  { manifest := { maniC6base with signature := sign_manifest maniC6base "primary" } }

/-- Concrete auditor state for the C6 scenario: local epoch 1 with one
recompute bump recorded at time 1000. -/
def stC6ex : SyncState :=
  { epoch := 1,
    recompute_history :=
      [{ epoch := 1, timestamp := 1000, reason_code := "SCORING_BUG",
         reason_detail := "fix" }] }

/-- Concrete store for the C6 scenario: the epoch-2 checkpoint, no
deltas. -/
def storeC6ex : StoreModel :=
  { latest_checkpoint := some cpC6ex
    delta_ids := fun _ _ => []
    fetch_delta := fun _ => none }

/-- Accumulator entry of the populated C6 checkpoint: one miner at uid 0,
empty accumulator pairs (so every derived mean takes its fallback). -/
def accC6w : AccumulatorEntry := { miner_id := 1, hotkey := "m1", uid := 0 }

/-- The metrics `from_accumulator` derives from `accC6w`. -/
def mC6w : MinerMetrics :=
  { uid := 0, hotkey := "m1", fq_raw := 0, pss_mean := 0, es_adj := 0,
    mes_mean := 1/2, cal_score := 1/2, sharp_score := 1/2, sos_score := 1/2,
    lead_score := 1/2, brier_mean := 0 }

/-- Chain params carried by the populated C6 checkpoint: one neuron, no
burn uid, no minimum, unit weight cap. -/
def chainC6w : ChainParamsSnapshot :=
  { burn_rate := 9/10, burn_uid := none, max_weight_limit := 1,
    min_allowed_weights := 0, n_neurons := 1 }

/-- Unsigned manifest of the populated epoch-2 C6 checkpoint, with
correct section hashes (no recompute record — a benign bump). -/
def maniC6wBase : LedgerManifest :=
  { window_type := "checkpoint", window_start := dtA, window_end := dtB,
    checkpoint_epoch := 2,
    content_hashes :=
      [("roster", SectionVal.rosterSec []),
       ("accumulators", SectionVal.accumulatorsSec [accC6w]),
       ("scoring_config", SectionVal.configSec {})],
    primary_hotkey := "primary", created_at := dtB }

/-- The populated, signed, well-formed epoch-2 checkpoint for the C6
counterexample: one accumulator entry and embedded chain params. -/
def cpC6w : CheckpointWindow :=
  { manifest := { maniC6wBase with signature := sign_manifest maniC6wBase "primary" }
    accumulators := [accC6w]
    chain_params := some chainC6w }

/-- Store of the C6 counterexample: the populated epoch-2 checkpoint, no
deltas. -/
def storeC6w : StoreModel :=
  { latest_checkpoint := some cpC6w
    delta_ids := fun _ _ => []
    fetch_delta := fun _ => none }

/-- Chain view of the C6 counterexample: the primary hotkey is not in the
metagraph, so the plugin's on-chain comparison is skipped and `match`
keeps its default. -/
def chainViewC6 : ChainView :=
  { metagraph_hotkeys := [], metagraph_W := none, metagraph_n := 1,
    owner_hotkey := none }

/-- Concrete epoch-9 checkpoint for the C8 failing input. -/
def cpC8a : CheckpointWindow :=
  { manifest :=
    { window_type := "checkpoint", window_start := dtA, window_end := dtB,
      checkpoint_epoch := 9, content_hashes := [], primary_hotkey := "primary",
      created_at := dtB } }

/-- Concrete epoch-10 checkpoint for the C8 failing input (same window
end as the epoch-9 one). -/
def cpC8b : CheckpointWindow :=
  { manifest :=
    { window_type := "checkpoint", window_start := dtA, window_end := dtB,
      checkpoint_epoch := 10, content_hashes := [], primary_hotkey := "primary",
      created_at := dtB } }

/-- The C8 failing store: both checkpoints written. -/
def stC8ex : CheckpointDir :=
  (put_checkpoint (put_checkpoint [] cpC8a).1 cpC8b).1

/-- Concrete delta for the C9 failing input: window 2024-01-01 to
2024-01-10 in epoch 1. -/
def deltaC9ex : DeltaWindow :=
  { manifest :=
    { window_type := "delta", window_start := dtA,
      window_end := ⟨2024, 1, 10, 0, 0, 0⟩, checkpoint_epoch := 1,
      content_hashes := [], primary_hotkey := "primary", created_at := dtB } }

/-- The C9 failing store: the one delta written. -/
def stC9ex : DeltaDirs := (put_delta [] deltaC9ex).1

/-- The C9 `since` cursor: 2024-01-05, strictly between the stored
delta's window start and window end. -/
def sinceC9ex : DateTime := ⟨2024, 1, 5, 0, 0, 0⟩

/-! ## Claims -/

/-- C1: `compute_weights` is deterministic and referentially transparent:
equal `(miner_metrics, scoring_config, chain_params)` inputs produce equal
outputs — in particular equal `uids` and `uint16_weights` lists. In this
shallow embedding the function is a pure Lean function of exactly these
three arguments (no randomness, clock or ambient state), so the claim is
the substitution property below. -/
theorem C1_compute_weights_deterministic
    (m₁ m₂ : List MinerMetrics) (c₁ c₂ : ScoringConfigSnapshot)
    (p₁ p₂ : ChainParamsSnapshot)
    (hm : m₁ = m₂) (hc : c₁ = c₂) (hp : p₁ = p₂) :
    compute_weights m₁ c₁ p₁ = compute_weights m₂ c₂ p₂ ∧
    (compute_weights m₁ c₁ p₁).uids = (compute_weights m₂ c₂ p₂).uids ∧
    (compute_weights m₁ c₁ p₁).uint16_weights =
      (compute_weights m₂ c₂ p₂).uint16_weights := by
  subst hm; subst hc; subst hp
  exact ⟨rfl, rfl, rfl⟩

/-- Witness for C1 at concrete inputs. -/
theorem C1_witness :
    compute_weights metricsC1ex {} chainC1ex = compute_weights metricsC1ex {} chainC1ex ∧
    (compute_weights metricsC1ex {} chainC1ex).uids =
      (compute_weights metricsC1ex {} chainC1ex).uids ∧
    (compute_weights metricsC1ex {} chainC1ex).uint16_weights =
      (compute_weights metricsC1ex {} chainC1ex).uint16_weights :=
  C1_compute_weights_deterministic metricsC1ex metricsC1ex {} {} chainC1ex chainC1ex
    rfl rfl rfl

/-- C2: after `derive_means`, each derived mean equals `ws / wt` of its
accumulator pair when `wt ≠ 0`, and the per-metric fallback when `wt = 0`:
0 for `brier_mean`, `fq_raw`, `pss_mean`, `es_adj`; 1/2 for `mes_mean`,
`sos_score`, `lead_score`. -/
theorem C2_derive_means_spec (a : AccumulatorEntry) :
    ((a.brier.wt ≠ 0 → a.derive_means.brier_mean = a.brier.ws / a.brier.wt) ∧
      (a.brier.wt = 0 → a.derive_means.brier_mean = 0)) ∧
    ((a.fq.wt ≠ 0 → a.derive_means.fq_raw = a.fq.ws / a.fq.wt) ∧
      (a.fq.wt = 0 → a.derive_means.fq_raw = 0)) ∧
    ((a.pss.wt ≠ 0 → a.derive_means.pss_mean = a.pss.ws / a.pss.wt) ∧
      (a.pss.wt = 0 → a.derive_means.pss_mean = 0)) ∧
    ((a.es.wt ≠ 0 → a.derive_means.es_adj = a.es.ws / a.es.wt) ∧
      (a.es.wt = 0 → a.derive_means.es_adj = 0)) ∧
    ((a.mes.wt ≠ 0 → a.derive_means.mes_mean = a.mes.ws / a.mes.wt) ∧
      (a.mes.wt = 0 → a.derive_means.mes_mean = 1/2)) ∧
    ((a.sos.wt ≠ 0 → a.derive_means.sos_score = a.sos.ws / a.sos.wt) ∧
      (a.sos.wt = 0 → a.derive_means.sos_score = 1/2)) ∧
    ((a.lead.wt ≠ 0 → a.derive_means.lead_score = a.lead.ws / a.lead.wt) ∧
      (a.lead.wt = 0 → a.derive_means.lead_score = 1/2)) := by
  refine ⟨⟨?_, ?_⟩, ⟨?_, ?_⟩, ⟨?_, ?_⟩, ⟨?_, ?_⟩, ⟨?_, ?_⟩, ⟨?_, ?_⟩, ?_, ?_⟩ <;>
    intro h <;> simp [AccumulatorEntry.derive_means, h]

/-- Witness for C2 at a concrete entry: the nonzero-weight mean and the
zero-weight fallback both evaluate as stated. -/
theorem C2_witness :
    accC2ex.derive_means.brier_mean = 3 ∧ accC2ex.derive_means.mes_mean = 1/2 := by
  constructor
  · have h := (C2_derive_means_spec accC2ex).1.1 (by norm_num [accC2ex])
    rw [h]; norm_num [accC2ex]
  · exact (C2_derive_means_spec accC2ex).2.2.2.2.1.2 rfl

/-- C10: `MinerMetrics.from_accumulator` mutates its argument: the entry
it leaves behind is exactly `derive_means` of the input (the seven derived
mean fields recomputed from the `(ws, wt)` pairs), `cal_score` and
`sharp_score` stay as published, the returned metrics carry the recomputed
means, and the published values of the overwritten fields are discarded —
the result is invariant under changing any of them — rather than compared
against the recomputation. -/
theorem C10_from_accumulator_mutates (acc : AccumulatorEntry) :
    (MinerMetrics.from_accumulator acc).2 = acc.derive_means ∧
    (acc.derive_means.cal_score = acc.cal_score ∧
      acc.derive_means.sharp_score = acc.sharp_score) ∧
    ((MinerMetrics.from_accumulator acc).1.brier_mean = acc.derive_means.brier_mean ∧
      (MinerMetrics.from_accumulator acc).1.fq_raw = acc.derive_means.fq_raw ∧
      (MinerMetrics.from_accumulator acc).1.pss_mean = acc.derive_means.pss_mean ∧
      (MinerMetrics.from_accumulator acc).1.es_adj = acc.derive_means.es_adj ∧
      (MinerMetrics.from_accumulator acc).1.mes_mean = acc.derive_means.mes_mean ∧
      (MinerMetrics.from_accumulator acc).1.sos_score = acc.derive_means.sos_score ∧
      (MinerMetrics.from_accumulator acc).1.lead_score = acc.derive_means.lead_score ∧
      (MinerMetrics.from_accumulator acc).1.cal_score = acc.cal_score ∧
      (MinerMetrics.from_accumulator acc).1.sharp_score = acc.sharp_score) ∧
    (∀ q : ℚ,
      MinerMetrics.from_accumulator { acc with brier_mean := q } =
        MinerMetrics.from_accumulator acc ∧
      MinerMetrics.from_accumulator { acc with fq_raw := q } =
        MinerMetrics.from_accumulator acc ∧
      MinerMetrics.from_accumulator { acc with pss_mean := q } =
        MinerMetrics.from_accumulator acc ∧
      MinerMetrics.from_accumulator { acc with es_adj := q } =
        MinerMetrics.from_accumulator acc ∧
      MinerMetrics.from_accumulator { acc with mes_mean := q } =
        MinerMetrics.from_accumulator acc ∧
      MinerMetrics.from_accumulator { acc with sos_score := q } =
        MinerMetrics.from_accumulator acc ∧
      MinerMetrics.from_accumulator { acc with lead_score := q } =
        MinerMetrics.from_accumulator acc) := by
  refine ⟨rfl, ⟨rfl, rfl⟩, ⟨rfl, rfl, rfl, rfl, rfl, rfl, rfl, rfl, rfl⟩, ?_⟩
  intro q
  refine ⟨?_, ?_, ?_, ?_, ?_, ?_, ?_⟩ <;>
    simp [MinerMetrics.from_accumulator, AccumulatorEntry.derive_means]

/-- C4: manifest signing round-trips — signing a manifest and verifying
against the signer's hotkey succeeds — and any change to a non-signature
manifest field (i.e. any change to the signing payload: epoch, window
bounds, a content hash, the hotkey, …) while keeping the original
signature makes verification fail. -/
theorem C4_sign_verify_roundtrip (m : LedgerManifest) (k : String) :
    verify_manifest { m with signature := sign_manifest m k } k = true ∧
    (∀ m' : LedgerManifest, m'.signature = sign_manifest m k →
      manifest_signing_payload m' ≠ manifest_signing_payload m →
      verify_manifest m' k = false) := by
  constructor
  · simp [verify_manifest, sign_manifest, manifest_signing_payload]
  · intro m' hs hne
    have hne' : manifest_signing_payload m ≠ manifest_signing_payload m' :=
      fun h => hne h.symm
    simp [verify_manifest, hs, sign_manifest, hne']

/-- Witness for C4: the concrete signed manifest verifies, and the same
signature over a manifest whose epoch was changed does not. -/
theorem C4_witness :
    verify_manifest { maniC4ex with signature := sign_manifest maniC4ex "primary" }
      "primary" = true ∧
    verify_manifest
      { maniC4ex with
        checkpoint_epoch := 2
        signature := sign_manifest maniC4ex "primary" } "primary" = false := by
  constructor
  · exact (C4_sign_verify_roundtrip maniC4ex "primary").1
  · exact (C4_sign_verify_roundtrip maniC4ex "primary").2 _ rfl (by decide)

/-- The per-section hash checks of `_verify` produce no error exactly when
every expected section has a stored hash equal to the recomputed one. -/
theorem section_hash_errors_nil_iff (m : LedgerManifest)
    (secs : List (String × SectionVal)) :
    section_hash_errors m secs = [] ↔
      ∀ s ∈ secs, dictFind m.content_hashes s.1 = some (compute_section_hash s.2) := by
  induction secs with
  | nil => simp [section_hash_errors]
  | cons hd tl ih =>
    cases hfind : dictFind m.content_hashes hd.1 with
    | none =>
      apply iff_of_false
      · simp [section_hash_errors, hfind]
      · intro hall
        have h := hall hd (List.mem_cons_self hd tl)
        rw [hfind] at h
        exact Option.noConfusion h
    | some e =>
      by_cases he : compute_section_hash hd.2 = e
      · have hstep : section_hash_errors m (hd :: tl) = section_hash_errors m tl := by
          simp [section_hash_errors, hfind, he]
        rw [hstep, ih]
        constructor
        · intro hall s hs
          rcases List.mem_cons.mp hs with rfl | hs'
          · rw [hfind, he]
          · exact hall s hs'
        · intro hall s hs
          exact hall s (List.mem_cons_of_mem hd hs)
      · apply iff_of_false
        · simp [section_hash_errors, hfind, he]
        · intro hall
          have h := hall hd (List.mem_cons_self hd tl)
          rw [hfind] at h
          exact he (Option.some.inj h).symm

/-- Helper: a conditional singleton error list is empty iff the error
condition fails. -/
theorem ite_singleton_nil_iff {P : Prop} [Decidable P] (s : String) :
    (if P then [s] else []) = [] ↔ ¬P := by
  by_cases h : P <;> simp [h]

/-- C3: the manifest verifier returns `valid = true` iff the schema
version matches, the primary hotkey matches, the signature verifies over
the canonical manifest-minus-signature, every expected section
(roster/accumulators/scoring_config for a checkpoint,
settled_submissions/settled_outcomes for a delta) has a stored content
hash equal to the recomputed hash, and the window type matches the window
kind; and a failing verification yields `valid = false` with a non-empty
error list (the verifier is a total function — no exception path). -/
theorem C3_verifier_valid_iff (hot : String) (w : Window) :
    ((verifier_verify hot w).valid = true ↔
      (w.manifest.schema_version = LEDGER_SCHEMA_VERSION ∧
       w.manifest.primary_hotkey = hot ∧
       verify_manifest w.manifest hot = true ∧
       (∀ s ∈ w.sections,
         dictFind w.manifest.content_hashes s.1 = some (compute_section_hash s.2)) ∧
       w.manifest.window_type = w.expectedType)) ∧
    ((verifier_verify hot w).valid = false →
      (verifier_verify hot w).errors ≠ []) := by
  constructor
  · show (List.isEmpty _) = true ↔ _
    rw [List.isEmpty_iff]
    simp only [List.append_eq_nil, ite_singleton_nil_iff, section_hash_errors_nil_iff,
      not_not, ne_eq, Bool.not_eq_false]
    tauto
  · intro h hnil
    rw [show (verifier_verify hot w).valid = (verifier_verify hot w).errors.isEmpty
      from rfl, hnil] at h
    simp at h

/-- Witness for C3: the concrete well-formed checkpoint passes every check
of the iff, hence verifies. -/
theorem C3_witness :
    (verifier_verify "primary" (Window.checkpoint cpC3ex)).valid = true := by
  apply ((C3_verifier_valid_iff "primary" (Window.checkpoint cpC3ex)).1).2
  refine ⟨rfl, rfl, by decide, by decide, rfl⟩

/-- Every Tier-3 denylisted field name is in none of the five Tier-2
allowlists (checked by evaluation). -/
theorem tier3_not_in_allowlists :
    ∀ f ∈ TIER3_FIELD_PATTERNS,
      ¬(f ∈ SAFE_ACCUMULATOR_FIELDS ∨ f ∈ SAFE_ROLLING_SCORE_FIELDS ∨
        f ∈ SAFE_OUTCOME_FIELDS ∨ f ∈ SAFE_MINER_FIELDS ∨
        f ∈ SAFE_SETTLED_SUBMISSION_FIELDS) := by decide

/-- C7: the Tier-3 denylist is disjoint from the union of the five Tier-2
allowlists, and consequently `contains_tier3` is false on every row
produced by `redact` under any of these allowlists. -/
theorem C7_tier3_disjoint_and_redact_safe :
    (TIER3_FIELD_PATTERNS.filter (fun f =>
      decide (f ∈ SAFE_ACCUMULATOR_FIELDS ∨ f ∈ SAFE_ROLLING_SCORE_FIELDS ∨
        f ∈ SAFE_OUTCOME_FIELDS ∨ f ∈ SAFE_MINER_FIELDS ∨
        f ∈ SAFE_SETTLED_SUBMISSION_FIELDS)) = []) ∧
    ∀ (row : Row ℚ) (allow : List String),
      (allow = SAFE_ACCUMULATOR_FIELDS ∨ allow = SAFE_ROLLING_SCORE_FIELDS ∨
       allow = SAFE_OUTCOME_FIELDS ∨ allow = SAFE_MINER_FIELDS ∨
       allow = SAFE_SETTLED_SUBMISSION_FIELDS) →
      contains_tier3 (redact row allow) = false := by
  constructor
  · decide
  · intro row allow hallow
    rw [contains_tier3, List.any_eq_false]
    intro kv hkv
    simp only [redact, List.mem_filter, Bool.and_eq_true, decide_eq_true_eq] at hkv
    simp only [decide_eq_true_eq]
    intro htier
    apply tier3_not_in_allowlists kv.1 htier
    rcases hallow with h | h | h | h | h <;> rw [h] at hkv
    · exact Or.inl hkv.2.1
    · exact Or.inr (Or.inl hkv.2.1)
    · exact Or.inr (Or.inr (Or.inl hkv.2.1))
    · exact Or.inr (Or.inr (Or.inr (Or.inl hkv.2.1)))
    · exact Or.inr (Or.inr (Or.inr (Or.inr hkv.2.1)))

/-- Witness for C7: redaction under the accumulator allowlist yields a row
with no Tier-3 field. -/
theorem C7_witness : contains_tier3 (redact rowC7ex SAFE_ACCUMULATOR_FIELDS) = false :=
  C7_tier3_disjoint_and_redact_safe.2 rowC7ex SAFE_ACCUMULATOR_FIELDS (Or.inl rfl)

/-- The audit-recording fold never touches the `uids`, `uint16_weights`
or `raw_weights` fields. -/
theorem foldl_audit_step_fields (l : List (ℤ × ℚ × (ℚ × ℚ × ℚ × ℚ))) :
    ∀ r : WeightResult,
      (l.foldl audit_step r).uids = r.uids ∧
      (l.foldl audit_step r).uint16_weights = r.uint16_weights ∧
      (l.foldl audit_step r).raw_weights = r.raw_weights := by
  induction l with
  | nil => intro r; exact ⟨rfl, rfl, rfl⟩
  | cons hd tl ih => intro r; exact ih (audit_step r hd)

/-- `audit_result` leaves the weight-output fields at their defaults. -/
theorem audit_result_fields (ms : List MinerMetrics) (cfg : ScoringConfigSnapshot) :
    (audit_result ms cfg).uids = [] ∧
    (audit_result ms cfg).uint16_weights = [] ∧
    (audit_result ms cfg).raw_weights = [] :=
  foldl_audit_step_fields _ {}

/-- `process_and_emit` records exactly the positive entries of the raw
weight vector, in uid order, into `raw_weights`. -/
theorem process_and_emit_raw (res : WeightResult) (raw : List ℚ)
    (chain : ChainParamsSnapshot) :
    (process_and_emit res raw chain).raw_weights =
      (List.range chain.n_neurons).filterMap (fun u =>
        if 0 < raw.getD u 0 then some ((u : ℤ), raw.getD u 0) else none) := by
  rw [process_and_emit]
  split_ifs <;> rfl

/-- Every position of an all-zero list reads zero. -/
theorem getD_replicate_zero (m u : ℕ) : (List.replicate m (0 : ℚ)).getD u 0 = 0 := by
  induction m generalizing u with
  | zero => simp
  | succ k ih =>
    cases u with
    | zero => simp [List.replicate_succ]
    | succ u' => simp [List.replicate_succ, ih]

/-- Reading the one-hot vector `replicate n 0` with position `b` set to 1. -/
theorem getD_replicate_set (n b u : ℕ) (hb : b < n) :
    ((List.replicate n (0 : ℚ)).set b 1).getD u 0 = if u = b then 1 else 0 := by
  induction n generalizing b u with
  | zero => omega
  | succ m ih =>
    rw [List.replicate_succ]
    cases b with
    | zero =>
      cases u with
      | zero => simp
      | succ u' => simp [getD_replicate_zero]
    | succ b' =>
      cases u with
      | zero => simp
      | succ u' =>
        rw [List.set_cons_succ, List.getD_cons_succ, ih b' u' (by omega)]
        by_cases h : u' = b' <;> simp [h]

/-- Collecting the positive entries of a one-hot vector yields exactly the
hot index with value 1. -/
theorem filterMap_onehot (n b : ℕ) (hb : b < n) (f : ℕ → ℚ)
    (hf : ∀ u, f u = if u = b then 1 else 0) :
    (List.range n).filterMap (fun u => if 0 < f u then some ((u : ℤ), f u) else none)
      = [((b : ℤ), 1)] := by
  induction n with
  | zero => omega
  | succ m ih =>
    rw [List.range_succ, List.filterMap_append]
    by_cases hbm : b < m
    · rw [ih hbm]
      have hm : f m = 0 := by rw [hf m]; simp [Nat.ne_of_gt hbm]
      simp [hm]
    · have hbm' : b = m := by omega
      subst hbm'
      have hpre : (List.range b).filterMap
          (fun u => if 0 < f u then some ((u : ℤ), f u) else none) = [] := by
        rw [List.filterMap_eq_nil_iff]
        intro u hu
        have h0 : f u = 0 := by
          rw [hf u]; simp [Nat.ne_of_lt (List.mem_range.mp hu)]
        simp [h0]
      rw [hpre]
      have hb1 : f b = 1 := by rw [hf b]; simp
      simp [hb1]

/-- C5: when the L1 norm of the dense skill-score vector is zero (the NaN
alternative of the source's `norm == 0 or np.isnan(norm)` test is vacuous
in the exact-rational model): with a `burn_uid` that is present and in
range the entire raw weight vector is allocated to `burn_uid`; otherwise
the result has empty `uids` and empty `uint16_weights` — a legal output,
not an error. -/
theorem C5_zero_norm_burn_allocation (ms : List MinerMetrics)
    (cfg : ScoringConfigSnapshot) (chain : ChainParamsSnapshot)
    (hms : ms ≠ [])
    (hzero : l1Norm (dense_scores ms cfg chain.n_neurons) = 0) :
    (∀ b : ℤ, chain.burn_uid = some b → 0 ≤ b → b < (chain.n_neurons : ℤ) →
      (compute_weights ms cfg chain).raw_weights = [(b, 1)]) ∧
    (burn_uid_valid chain = false →
      (compute_weights ms cfg chain).uids = [] ∧
      (compute_weights ms cfg chain).uint16_weights = []) := by
  have hEmpty : ms.isEmpty = false := by
    cases ms with
    | nil => exact absurd rfl hms
    | cons a l => rfl
  constructor
  · intro b hb h0 hn
    have hbn : b.toNat < chain.n_neurons := by omega
    rw [compute_weights, if_neg (by rw [hEmpty]; exact Bool.false_ne_true)]
    simp only [hzero, hb, h0, hn, eq_self_iff_true, and_self, if_true, ite_true]
    rw [process_and_emit_raw]
    rw [filterMap_onehot chain.n_neurons b.toNat hbn
      (fun u => ((List.replicate chain.n_neurons (0 : ℚ)).set b.toNat 1).getD u 0)
      (fun u => getD_replicate_set chain.n_neurons b.toNat u hbn)]
    rw [Int.toNat_of_nonneg h0]
  · intro hinv
    rw [compute_weights, if_neg (by rw [hEmpty]; exact Bool.false_ne_true)]
    cases hb : chain.burn_uid with
    | none =>
      simp only [hzero, hb, eq_self_iff_true, if_true, ite_true]
      exact ⟨(audit_result_fields ms cfg).1, (audit_result_fields ms cfg).2.1⟩
    | some b =>
      have hnv : ¬(0 ≤ b ∧ b < (chain.n_neurons : ℤ)) := by
        intro hv
        rw [burn_uid_valid, hb] at hinv
        simp [hv.1, hv.2] at hinv
      simp only [hzero, hb, eq_self_iff_true, if_true, ite_true, if_neg hnv]
      exact ⟨(audit_result_fields ms cfg).1, (audit_result_fields ms cfg).2.1⟩

/-- The L1 norm of an all-zero vector is zero. -/
theorem l1Norm_replicate_zero (n : ℕ) : l1Norm (List.replicate n (0 : ℚ)) = 0 := by
  induction n with
  | zero => rfl
  | succ m ih =>
    rw [List.replicate_succ]
    simp [l1Norm, sumQ] at ih ⊢
    exact ih

/-- The C5 witness miner scatters outside the neuron range, so the dense
score vector is identically zero. -/
theorem dense_scores_C5ex :
    dense_scores msC5ex {} chainC5ex.n_neurons = List.replicate 3 (0 : ℚ) := by
  norm_num [dense_scores, sorted_metrics, skill_score_vec, dimension_vecs,
    extract_params, dictGet, normalize_percentile, sumQ, clipQ, msC5ex, chainC5ex,
    truncQ, List.insertionSort, List.orderedInsert, List.countP_cons, List.countP_nil]

/-- Witness for C5: for the concrete out-of-range single miner the dense
score vector is all zero and the whole raw weight vector goes to the burn
uid. -/
theorem C5_witness : (compute_weights msC5ex {} chainC5ex).raw_weights = [(1, 1)] :=
  (C5_zero_norm_burn_allocation msC5ex {} chainC5ex (by simp [msC5ex])
    (by rw [dense_scores_C5ex]; exact l1Norm_replicate_zero 3)).1
    1 rfl (by norm_num) (by norm_num [chainC5ex])

/-- The daily bump count in the concrete C6 scenario is 1. -/
theorem bumpsWithin_C6_day : bumpsWithin stC6ex 1100 86400 = 1 := by
  norm_num [bumpsWithin, stC6ex]

/-- `from_accumulator` on the C6 counterexample's entry yields the
fallback metrics `mC6w` (every accumulator pair is empty). -/
theorem from_accumulator_C6w : (MinerMetrics.from_accumulator accC6w).1 = mC6w := by
  norm_num [MinerMetrics.from_accumulator, AccumulatorEntry.derive_means, accC6w, mC6w]

/-- The single C6 miner is already sorted. -/
theorem sorted_metrics_C6w : sorted_metrics [mC6w] = [mC6w] := by
  norm_num [sorted_metrics, List.insertionSort, List.orderedInsert]

/-- All four dimension scores of the single C6 miner evaluate to 1/2
(every normalized metric is 1/2 under the defaults). -/
theorem dimension_vecs_C6w :
    dimension_vecs [mC6w] {} = [(1/2, 1/2, 1/2, 1/2)] := by
  norm_num [dimension_vecs, extract_params, dictGet, sorted_metrics_C6w,
    normalize_percentile, clipQ, truncQ,
    List.countP_cons, List.countP_nil,
    show mC6w.fq_raw = 0 from rfl, show mC6w.pss_mean = 0 from rfl,
    show mC6w.es_adj = 0 from rfl, show mC6w.mes_mean = 1/2 from rfl,
    show mC6w.cal_score = 1/2 from rfl, show mC6w.sos_score = 1/2 from rfl,
    show mC6w.lead_score = 1/2 from rfl]

/-- The single C6 miner's skill score is 1/2. -/
theorem skill_score_vec_C6w : skill_score_vec [mC6w] {} = [1/2] := by
  norm_num [skill_score_vec, extract_params, dictGet, truncQ,
    dimension_vecs_C6w]

/-- The dense score vector of the C6 counterexample: uid 0 holds 1/2. -/
theorem dense_scores_C6w : dense_scores [mC6w] {} 1 = [1/2] := by
  norm_num [dense_scores, sorted_metrics_C6w, skill_score_vec_C6w,
    show mC6w.uid = 0 from rfl,
    List.replicate_succ, List.replicate_zero]

/-- Burn application in the C6 scenario: no burn uid, so the L1-normalized
vector is returned unchanged. -/
theorem apply_burn_C6w : apply_burn [1/2] (1/2) chainC6w (9/10) = [1] := by
  norm_num [apply_burn, show chainC6w.burn_uid = none from rfl]

/-- The max-weight projection on the singleton unit vector with limit 1
takes the uniform branch. -/
theorem normalize_max_weight_C6w : normalize_max_weight [1] 1 = [1] := by
  norm_num [normalize_max_weight, sumQ, List.insertionSort,
    List.orderedInsert, List.replicate_succ, List.replicate_zero]

/-- Quantization of the singleton unit weight at uid 0. -/
theorem convert_to_uint16_C6w :
    convert_to_uint16 [((0 : ℤ), (1 : ℚ))] = ([0], [65535]) := by
  norm_num [convert_to_uint16, maxQ, pyRound, U16_MAX,
    List.filterMap_cons, List.filterMap_nil]

/-- Steiner step for the C6 evaluation: emitting from the raw vector `[1]`
under the C6 chain params yields uid 0 with the full uint16 weight,
whatever the audit prefix. -/
theorem process_and_emit_C6w (res : WeightResult) :
    (process_and_emit res [1] chainC6w).uids = [0] ∧
    (process_and_emit res [1] chainC6w).uint16_weights = [65535] := by
  norm_num [process_and_emit, show chainC6w.n_neurons = 1 from rfl,
    show chainC6w.min_allowed_weights = 0 from rfl,
    show chainC6w.max_weight_limit = (1 : ℚ) from rfl,
    List.range_succ, List.range_zero,
    List.filterMap_cons, List.filterMap_nil,
    normalize_max_weight_C6w, convert_to_uint16_C6w]

/-- The shared weight computation on the C6 counterexample's single miner
produces a non-empty weight vector: all of it at uid 0. -/
theorem compute_weights_C6w :
    (compute_weights [mC6w] {} chainC6w).uids = [0] ∧
    (compute_weights [mC6w] {} chainC6w).uint16_weights = [65535] := by
  have hbr : (extract_params {}).burn_rate = 9/10 := by
    norm_num [extract_params, dictGet]
  have hpe := process_and_emit_C6w (audit_result [mC6w] {})
  have habs : |(1 : ℚ)/2| = 1/2 := by norm_num
  norm_num [compute_weights, show chainC6w.n_neurons = 1 from rfl,
    dense_scores_C6w, l1Norm, sumQ, habs, hbr, apply_burn_C6w, hpe.1, hpe.2]

set_option maxRecDepth 8192 in
/-- The populated epoch-2 checkpoint of the C6 counterexample passes
manifest verification. -/
theorem cpC6w_valid : (verify_checkpoint "primary" cpC6w).valid = true := by
  have hsig : verify_manifest cpC6w.manifest "primary" = true := by
    show (decide ("primary" = "primary") &&
      decide (manifest_signing_payload maniC6wBase =
        manifest_signing_payload cpC6w.manifest)) = true
    simp only [Bool.and_eq_true, decide_eq_true_eq]
    exact ⟨trivial, rfl⟩
  have hsec : section_hash_errors cpC6w.manifest
      [("roster", SectionVal.rosterSec cpC6w.roster),
       ("accumulators", SectionVal.accumulatorsSec cpC6w.accumulators),
       ("scoring_config", SectionVal.configSec cpC6w.scoring_config)] = [] := by
    rw [section_hash_errors_nil_iff]
    intro s hs
    simp only [List.mem_cons, List.not_mem_nil, or_false] at hs
    rcases hs with rfl | rfl | rfl <;> rfl
  rw [verify_checkpoint, verifier_verify]
  simp only [Window.manifest, Window.sections, Window.expectedType]
  rw [if_neg (show ¬(cpC6w.manifest.schema_version ≠ LEDGER_SCHEMA_VERSION) by decide)]
  rw [if_neg (show ¬(cpC6w.manifest.primary_hotkey ≠ "primary") by decide)]
  simp only [hsig]
  rw [if_neg (show ¬(true = false) by decide), hsec]
  rw [if_neg (show ¬(cpC6w.manifest.window_type ≠ "checkpoint") by decide)]
  rfl

/-- The weight-verification plugin, handed the populated C6 checkpoint
and a metagraph that does not list the primary hotkey (so the on-chain
comparison is skipped and `match` keeps its default), submits the
computed weight vector. -/
theorem weight_verification_C6w :
    weight_verification_on_cycle
      { checkpoint := some cpC6w, deltas := [], chain := chainViewC6 } (1/1000) =
      { status := "pass", sets_weights := true, submitted_uids := [0],
        submitted_weights := [65535] } := by
  simp only [weight_verification_on_cycle,
    show cpC6w.accumulators = [accC6w] from rfl,
    show cpC6w.chain_params = some chainC6w from rfl,
    show cpC6w.scoring_config = ({} : ScoringConfigSnapshot) from rfl,
    show chainViewC6.metagraph_hotkeys = ([] : List String) from rfl,
    List.map_cons, List.map_nil, from_accumulator_C6w,
    compute_weights_C6w.1, compute_weights_C6w.2]
  simp

/-- In the concrete C6 scenario the epoch change against the populated
epoch-2 checkpoint is paused (the one prior bump is within the rolling
day and the daily limit is 1) and the state is left untouched. -/
theorem handle_epoch_change_C6w :
    handle_epoch_change stC6ex cpC6w 1100 1 3 =
      ({ status := "paused", reason := "RECOMPUTE_RATE_EXCEEDED_DAILY" }, stC6ex) := by
  rw [handle_epoch_change, bumpsWithin_C6_day]
  rw [if_neg (by decide), if_pos (by decide)]

/-- In the concrete C6 scenario the sync cycle stops at the pause: it
returns the populated checkpoint, no deltas, and the unchanged state. -/
theorem sync_cycle_C6w :
    sync_cycle storeC6w stC6ex 1100 1 3 = (some cpC6w, [], stC6ex) := by
  rw [sync_cycle]
  show (if cpC6w.manifest.checkpoint_epoch ≠ stC6ex.epoch then _ else _) = _
  rw [if_pos (by decide), handle_epoch_change_C6w]
  rw [if_pos (Or.inr rfl)]

/-- C6 counterexample: a concrete tick on which the original claim fails.
The epoch change is paused by the daily rate policy, yet weights ARE
produced that tick: `AuditorRuntime._cycle` never consults the
epoch-change result, dispatches the weight-verification plugin with the
new (populated, verified) checkpoint, and the plugin — whose on-chain
comparison defaults to a match because the primary hotkey is not in the
metagraph — calls `set_weights` with the freshly computed vector
`([0], [65535])`. -/
theorem C6_counterexample :
    (handle_epoch_change stC6ex cpC6w 1100 1 3).1.status = "paused" ∧
    runtime_weight_outcome "primary" storeC6w stC6ex 1100 1 3 chainViewC6 (1/1000) =
      some { status := "pass", sets_weights := true, submitted_uids := [0],
             submitted_weights := [65535] } := by
  constructor
  · rw [handle_epoch_change_C6w]
  · rw [runtime_weight_outcome]
    simp only [sync_cycle_C6w]
    rw [if_pos cpC6w_valid]
    simp only [List.filter_nil]
    rw [weight_verification_C6w]

/-- C6 (amended): on a checkpoint whose epoch differs from the local
epoch, if the rolling 24-hour bump count has reached `max_epoch_bumps_per_day`
or the rolling 7-day count has reached `max_epoch_bumps_per_week`, the
epoch change returns status "paused", the state (epoch, accumulator map,
delta cursor, history) is unchanged, and the sync cycle applies no deltas
— though the pause does not block weight production: the runtime still
dispatches its plugins with the checkpoint and the weight-verification
plugin can submit weights that tick (see the counterexample); once the
rolling windows no longer cover the prior bumps, the next epoch change is
accepted again. -/
theorem C6_epoch_rate_policy (store : StoreModel) (st : SyncState)
    (cp : CheckpointWindow) (now : ℚ) (mday mweek : ℤ)
    (hcp : store.latest_checkpoint = some cp)
    (hne : cp.manifest.checkpoint_epoch ≠ st.epoch)
    (hrec : ∀ r, cp.manifest.recompute_record = some r → r.reason_detail ≠ "") :
    ((mday ≤ (bumpsWithin st now 86400 : ℤ) ∨
      mweek ≤ (bumpsWithin st now 604800 : ℤ)) →
      (handle_epoch_change st cp now mday mweek).1.status = "paused" ∧
      (handle_epoch_change st cp now mday mweek).2 = st ∧
      sync_cycle store st now mday mweek = (some cp, [], st)) ∧
    (((bumpsWithin st now 86400 : ℤ) < mday ∧
      (bumpsWithin st now 604800 : ℤ) < mweek) →
      (handle_epoch_change st cp now mday mweek).1.status = "accepted" ∧
      (handle_epoch_change st cp now mday mweek).2.epoch =
        cp.manifest.checkpoint_epoch) := by
  have hrecnot : ¬((match cp.manifest.recompute_record with
      | some r => decide (r.reason_detail = "")
      | none => false) = true) := by
    cases hr : cp.manifest.recompute_record with
    | none => simp
    | some r => simp [hrec r hr]
  constructor
  · intro hrate
    have hp : (handle_epoch_change st cp now mday mweek).1.status = "paused" ∧
        (handle_epoch_change st cp now mday mweek).2 = st := by
      rw [handle_epoch_change, if_neg hrecnot]
      by_cases hd : mday ≤ (bumpsWithin st now 86400 : ℤ)
      · rw [if_pos hd]; exact ⟨rfl, rfl⟩
      · rw [if_neg hd, if_pos (hrate.resolve_left hd)]; exact ⟨rfl, rfl⟩
    refine ⟨hp.1, hp.2, ?_⟩
    rw [sync_cycle]
    simp only [hcp]
    rw [if_pos hne, if_pos (Or.inr hp.1), hp.2]
  · intro hlt
    rw [handle_epoch_change, if_neg hrecnot, if_neg (not_le.mpr hlt.1),
      if_neg (not_le.mpr hlt.2)]
    exact ⟨rfl, rfl⟩

/-- Witness for C6, pause side: the concrete scenario — one bump 100
seconds ago, daily limit 1, epoch-2 checkpoint against local epoch 1 —
pauses with untouched state and an empty delta list; recovery side: the
same state inspected 100000 seconds ( > 24 h) after the bump accepts. -/
theorem C6_witness :
    ((handle_epoch_change stC6ex cpC6ex 1100 1 3).1.status = "paused" ∧
      (handle_epoch_change stC6ex cpC6ex 1100 1 3).2 = stC6ex ∧
      sync_cycle storeC6ex stC6ex 1100 1 3 = (some cpC6ex, [], stC6ex)) ∧
    (handle_epoch_change stC6ex cpC6ex 101000 1 3).1.status = "accepted" := by
  constructor
  · exact (C6_epoch_rate_policy storeC6ex stC6ex cpC6ex 1100 1 3 rfl (by decide)
      (fun r h => Option.noConfusion h)).1
      (Or.inl (by rw [bumpsWithin_C6_day]; decide))
  · exact ((C6_epoch_rate_policy storeC6ex stC6ex cpC6ex 101000 1 3 rfl (by decide)
      (fun r h => Option.noConfusion h)).2
      ⟨by norm_num [bumpsWithin, stC6ex], by norm_num [bumpsWithin, stC6ex]⟩).1

/-- Code-point list comparison is asymmetric. -/
theorem clLt_asymm : ∀ a b : List Char, clLt a b = true → clLt b a = false := by
  intro a
  induction a with
  | nil =>
    intro b h
    cases b with
    | nil => simp [clLt] at h
    | cons y ys => rfl
  | cons x xs ih =>
    intro b h
    cases b with
    | nil => simp [clLt] at h
    | cons y ys =>
      simp only [clLt] at h ⊢
      by_cases hxy : x.toNat = y.toNat
      · rw [if_pos hxy] at h
        rw [if_pos hxy.symm]
        exact ih ys h
      · rw [if_neg hxy] at h
        rw [if_neg (fun hh => hxy hh.symm)]
        simp [chLt] at h ⊢
        omega

/-- The complement of code-point list comparison is transitive. -/
theorem clLt_neg_trans :
    ∀ a b c : List Char, clLt a b = false → clLt b c = false → clLt a c = false := by
  intro a
  induction a with
  | nil =>
    intro b c h1 h2
    cases b with
    | nil =>
      cases c with
      | nil => rfl
      | cons z zs => simp [clLt] at h2
    | cons y ys => simp [clLt] at h1
  | cons x xs ih =>
    intro b c h1 h2
    cases c with
    | nil => rfl
    | cons z zs =>
      cases b with
      | nil => simp [clLt] at h2
      | cons y ys =>
        simp only [clLt] at h1 h2 ⊢
        by_cases hxy : x.toNat = y.toNat
        · rw [if_pos hxy] at h1
          by_cases hyz : y.toNat = z.toNat
          · rw [if_pos hyz] at h2
            rw [if_pos (hxy.trans hyz)]
            exact ih ys zs h1 h2
          · rw [if_neg hyz] at h2
            rw [if_neg (fun hh => hyz (hxy.symm.trans hh))]
            simp [chLt] at h2 ⊢
            omega
        · rw [if_neg hxy] at h1
          by_cases hyz : y.toNat = z.toNat
          · rw [if_neg (fun hh => hxy (hh.trans hyz.symm))]
            simp [chLt] at h1 ⊢
            omega
          · rw [if_neg hyz] at h2
            simp [chLt] at h1 h2
            have hxz : x.toNat ≠ z.toNat := by omega
            rw [if_neg hxz]
            simp [chLt]
            omega

/-- Code-point list comparison is antisymmetric. -/
theorem clLt_antisymm :
    ∀ a b : List Char, clLt a b = false → clLt b a = false → a = b := by
  intro a
  induction a with
  | nil =>
    intro b h1 h2
    cases b with
    | nil => rfl
    | cons y ys => simp [clLt] at h1
  | cons x xs ih =>
    intro b h1 h2
    cases b with
    | nil => simp [clLt] at h2
    | cons y ys =>
      simp only [clLt] at h1 h2
      by_cases hxy : x.toNat = y.toNat
      · rw [if_pos hxy] at h1
        rw [if_pos hxy.symm] at h2
        rw [Char.ext (UInt32.ext hxy), ih ys h1 h2]
      · rw [if_neg hxy] at h1
        rw [if_neg (fun hh => hxy hh.symm)] at h2
        simp [chLt] at h1 h2
        exact absurd (by omega : x.toNat = y.toNat) hxy

/-- Python string comparison is antisymmetric. -/
theorem pyLt_antisymm (a b : String) (h1 : pyLt a b = false)
    (h2 : pyLt b a = false) : a = b := by
  cases a with
  | mk da =>
    cases b with
    | mk db => exact congrArg String.mk (clLt_antisymm da db h1 h2)

/-- Descending Python-string sort is sorted under `strGe`. -/
theorem sorted_insertionSort_strGe (l : List String) :
    List.Sorted strGe (List.insertionSort strGe l) := by
  letI : IsTotal String strGe := ⟨fun a b => by
    cases hb : pyLt a b with
    | false => exact Or.inl hb
    | true => exact Or.inr (clLt_asymm _ _ hb)⟩
  letI : IsTrans String strGe :=
    ⟨fun a b c h1 h2 => clLt_neg_trans _ _ _ h1 h2⟩
  exact List.sorted_insertionSort strGe l

/-- Ascending Python-string sort is sorted under `strLe`. -/
theorem sorted_insertionSort_strLe (l : List String) :
    List.Sorted strLe (List.insertionSort strLe l) := by
  letI : IsTotal String strLe := ⟨fun a b => by
    cases hb : pyLt b a with
    | false => exact Or.inl hb
    | true => exact Or.inr (clLt_asymm _ _ hb)⟩
  letI : IsTrans String strLe :=
    ⟨fun a b c h1 h2 => clLt_neg_trans _ _ _ h2 h1⟩
  exact List.sorted_insertionSort strLe l

/-- Association lookup finds the unique entry under a key when the key
list has no duplicates. -/
theorem dictFind_eq_of_mem {α : Type} :
    ∀ (st : List (String × α)) (k : String) (v : α),
      (st.map Prod.fst).Nodup → (k, v) ∈ st → dictFind st k = some v := by
  intro st
  induction st with
  | nil => intro k v _ hmem; cases hmem
  | cons hd tl ih =>
    intro k v hnd hmem
    rw [List.map_cons, List.nodup_cons] at hnd
    rcases List.mem_cons.mp hmem with heq | hmem'
    · rw [← heq, dictFind, if_pos rfl]
    · have hk : k ∈ tl.map Prod.fst := List.mem_map.mpr ⟨(k, v), hmem', rfl⟩
      have hne : hd.1 ≠ k := fun hh => hnd.1 (hh ▸ hk)
      rw [dictFind]
      rw [if_neg hne]
      exact ih k v hnd.2 hmem'

/-- What `get_latest_checkpoint` actually computes: the stored window
whose directory id is greatest in code-point order (which agrees with
(epoch desc, window_end desc) only while all stored epochs have equally
many decimal digits). -/
theorem get_latest_checkpoint_lex_max (st : CheckpointDir) (k : String)
    (cp : CheckpointWindow) (hnd : (st.map Prod.fst).Nodup)
    (hmem : (k, cp) ∈ st) (hmax : ∀ kv ∈ st, strLe kv.1 k) :
    get_latest_checkpoint st = some cp := by
  have hk : k ∈ st.map Prod.fst := List.mem_map.mpr ⟨(k, cp), hmem, rfl⟩
  have hks : k ∈ List.insertionSort strGe (st.map Prod.fst) :=
    (List.perm_insertionSort strGe _).mem_iff.mpr hk
  cases hs : List.insertionSort strGe (st.map Prod.fst) with
  | nil => rw [hs] at hks; cases hks
  | cons d rest =>
    rw [get_latest_checkpoint, hs]
    show dictFind st d = some cp
    have hsorted := sorted_insertionSort_strGe (st.map Prod.fst)
    rw [hs] at hsorted hks
    have hdk : d = k := by
      rcases List.mem_cons.mp hks with heq | hrest
      · exact heq.symm
      · have hge : strGe d k := List.rel_of_sorted_cons hsorted k hrest
        have hdmem : d ∈ st.map Prod.fst := by
          have hd : d ∈ List.insertionSort strGe (st.map Prod.fst) := by
            rw [hs]; exact List.mem_cons_self d rest
          exact (List.perm_insertionSort strGe _).mem_iff.mp hd
        obtain ⟨dv, hdin, hdeq⟩ := List.mem_map.mp hdmem
        have hle : strLe dv.1 k := hmax dv hdin
        rw [hdeq] at hle
        exact pyLt_antisymm d k hge hle
    rw [hdk]
    exact dictFind_eq_of_mem st k cp hnd hmem

/-- C8: `get_latest_checkpoint` evaluated at the failing input. The store
holds checkpoints of epochs 9 and 10 with the same window end; the claim
(and the spec's store contract) requires the one most recent by
(epoch desc, window_end desc) — epoch 10 — but the code sorts directory
names as strings, `"epoch_10_…" < "epoch_9_…"`, and returns the epoch-9
checkpoint. -/
theorem C8_latest_checkpoint_lex_bug :
    get_latest_checkpoint stC8ex = some cpC8a ∧
    (checkpoint_id cpC8b, cpC8b) ∈ stC8ex ∧
    cpC8a.manifest.checkpoint_epoch = 9 ∧
    cpC8b.manifest.checkpoint_epoch = 10 ∧
    ¬ get_latest_checkpoint stC8ex = some cpC8b := by decide

/-- C9 counterexample: the stored epoch-1 delta has `window_end`
(2024-01-10) strictly after `since` (2024-01-05), so the claim requires
its id in the listing — but `list_deltas` filters by
`id > "d_" + since` (a comparison against `window_start`) and returns
an empty list. -/
theorem C9_counterexample :
    list_deltas stC9ex 1 (some sinceC9ex) = [] ∧
    (1, delta_id deltaC9ex, deltaC9ex) ∈ stC9ex ∧
    sinceC9ex.isBefore deltaC9ex.manifest.window_end = true := by decide

/-- C9 (amended): `list_deltas(epoch, since)` returns exactly the ids of
the stored deltas of that epoch whose id exceeds
`"d_" + since.strftime("%Y%m%dT%H%M%S")` in code-point order (for
well-formed ids this compares the delta's `window_start`, at second
precision, against `since` — not `window_end`), sorted ascending; with
`since` absent, all of the epoch's ids, sorted ascending. -/
theorem C9_list_deltas_amended (st : DeltaDirs) (e : ℤ) :
    (∀ (t : DateTime) (d : String),
      d ∈ list_deltas st e (some t) ↔
        ((∃ w, (e, d, w) ∈ st) ∧ pyLt ("d_" ++ t.fmtCompact) d = true)) ∧
    (∀ d : String, d ∈ list_deltas st e none ↔ (∃ w, (e, d, w) ∈ st)) ∧
    (∀ t : DateTime, List.Sorted strLe (list_deltas st e (some t))) ∧
    List.Sorted strLe (list_deltas st e none) := by
  have hmem : ∀ d : String,
      d ∈ List.insertionSort strLe
        ((st.filter (fun x => decide (x.1 = e))).map (fun x => x.2.1)) ↔
      ∃ w, (e, d, w) ∈ st := by
    intro d
    rw [(List.perm_insertionSort _ _).mem_iff, List.mem_map]
    constructor
    · rintro ⟨⟨xe, xid, xw⟩, hx, rfl⟩
      obtain ⟨hxst, hxe⟩ := List.mem_filter.mp hx
      have hxe' : xe = e := of_decide_eq_true hxe
      subst hxe'
      exact ⟨xw, hxst⟩
    · rintro ⟨w, hw⟩
      exact ⟨(e, d, w), List.mem_filter.mpr ⟨hw, by simp⟩, rfl⟩
  refine ⟨?_, ?_, ?_, ?_⟩
  · intro t d
    rw [list_deltas]
    rw [List.mem_filter, hmem]
  · intro d
    rw [list_deltas]
    exact hmem d
  · intro t
    rw [list_deltas]
    exact (sorted_insertionSort_strLe _).filter _
  · rw [list_deltas]
    exact sorted_insertionSort_strLe _

end SparketLedger
